import Mathlib

/-!
GitCommander: a trace model of `src/index.js`.

The program is pure orchestration: it prompts the operator, calls the GitHub REST
API through axios, runs git through `execSync`, changes the process working
directory and prints to the console.  The embedding makes every one of those
interactions explicit:

* the *environment* (`Env`) answers each external call; it sees the whole program
  state, history included, so it can realise every pattern of successes and
  failures;
* the *state* (`State`) holds the two module-level variables `accessToken` and
  `username`, the process working directory, and the chronological trace of all
  interactions together with the answer each one received;
* an `await`ed call that rejects and an `execSync`/`process.chdir` that throws are
  both an `Except.error` carrying the error's `message`; `try { } catch { }` is a
  `match` on that result;
* where a successful `process.chdir` leaves the process is decided by the file
  system (symbolic links are followed), so it is part of the environment's answer.

Console decoration (chalk colours) does not change what is printed and is left out;
the figlet rendering of the banner is recorded as its own event.
-/

namespace GitCommander

/-! ## Data model -/

/-- The JavaScript values that the session variables and the `html_url` of a create
response range over. -/
inductive JsVal where
  | undefined
  | null
  | str (s : String)
  deriving DecidableEq, Repr

/-- Truthiness, as tested by `!accessToken`, `!username` and `!newRepoUrl`. -/
def JsVal.truthy : JsVal → Bool
  | .undefined => false
  | .null => false
  | .str s => s != ""

/-- Whether the value is a string, the empty string included. -/
def JsVal.isString : JsVal → Bool
  | .str _ => true
  | _ => false

/-- String conversion performed by a template literal placeholder. -/
def JsVal.interp : JsVal → String
  | .undefined => "undefined"
  | .null => "null"
  | .str s => s

/-- One element of the array returned by `GET /user/repos`; only the two fields the
program reads. -/
structure Repo where
  name : String
  clone_url : String
  deriving DecidableEq, Repr

/-- The four answers collected by the prompt of `migrateRepository` (lines 163 to 189). -/
structure MigrationRequest where
  sourceRepoUrl : String
  newRepoName : String
  newAuthorName : String
  newAuthorEmail : String
  deriving DecidableEq, Repr

/-- The values of the menu of `main` (lines 279 to 284). -/
inductive Feature where
  | clone
  | delete
  | migrate
  | exit
  deriving DecidableEq, Repr

/-- The text printed for a `Feature` by line 296. -/
def Feature.text : Feature → String
  | .clone => "clone"
  | .delete => "delete"
  | .migrate => "migrate"
  | .exit => "exit"

/-- The process working directory, as the list of its components from the root. -/
abbrev Path := List String

deriving instance DecidableEq for Except

/-- Everything the program does that is visible outside it, with the answer it got.
`call` is instrumentation: it marks the three call sites of `main` (lines 299, 301,
303) with the arguments passed there and the working directory at that moment. -/
inductive Event where
  | consoleClear
  | banner (text : String)
  | log (msg : String)
  | error (msg : String)
  | errorWith (label : String) (err : String)
  | promptInput (message : String) (res : Except String String)
  | promptConfirm (message : String) (res : Except String Bool)
  | promptFeature (res : Except String Feature)
  | promptMigration (res : Except String MigrationRequest)
  | httpGet (url auth : String) (res : Except String (List Repo))
  | httpDelete (url auth : String) (res : Except String Unit)
  | httpPost (url : String) (name : String) (priv : Bool) (auth : String)
      (res : Except String JsVal)
  | exec (cwd : Path) (cmd : String) (res : Except String Unit)
  | chdir (cwd : Path) (dir : String) (res : Except String Path)
  | call (f : Feature) (username accessToken : JsVal) (cwd : Path)
  deriving DecidableEq

/-- Program state: the module-level variables of lines 9 and 10, the working
directory of the process, and the trace so far (oldest event first). -/
structure State where
  accessToken : JsVal
  username : JsVal
  cwd : Path
  trace : List Event

/-- State of a freshly started process in directory `cwd`. -/
def State.init (cwd : Path) : State :=
  { accessToken := .null, username := .null, cwd := cwd, trace := [] }

/-- Append one event to the trace. -/
def State.emit (s : State) (e : Event) : State :=
  { s with trace := s.trace ++ [e] }

/-- The environment: the operator behind the prompts, the GitHub API behind axios,
the shell behind `execSync` and the file system behind `process.chdir`.  Each answer
may depend on the whole state at the time of the call.  A prompt answers with the
value inquirer resolves to (defaults already applied); an HTTP success on the create
endpoint answers with the `html_url` field of the response body; a successful
directory change answers with the directory the process is in afterwards. -/
structure Env where
  promptInput : State → String → Except String String
  promptConfirm : State → String → Except String Bool
  promptFeature : State → Except String Feature
  promptMigration : State → Except String MigrationRequest
  httpGet : State → String → String → Except String (List Repo)
  httpDelete : State → String → String → Except String Unit
  httpPost : State → String → String → Bool → String → Except String JsVal
  execSync : State → String → Except String Unit
  chdir : State → String → Except String Path

/-- Result of running a piece of the program: what it returned or threw, and the
state it left. -/
abbrev Outcome (α : Type) := Except String α × State

/-! ## Working directory -/

/-- Split a path at every slash. -/
def splitSlash : List Char → List (List Char)
  | [] => [[]]
  | c :: cs =>
    if c = '/' then [] :: splitSlash cs
    else match splitSlash cs with
      | [] => [[c]]
      | h :: t => (c :: h) :: t

/-- Follow one path component. -/
def resolveStep (acc : Path) (c : String) : Path :=
  if c = "" ∨ c = "." then acc
  else if c = ".." then acc.dropLast
  else acc ++ [c]

/-- Lexical resolution of `p` against the directory `cwd`: where `process.chdir(p)`
leads when no component on the way is a symbolic link. -/
def resolve (cwd : Path) (p : String) : Path :=
  ((splitSlash p.data).map String.mk).foldl resolveStep
    (if p.data.head? = some '/' then [] else cwd)

/-! ## Primitives -/

/-- Models `console.log(msg)`. -/
def consoleLog (msg : String) (s : State) : State := s.emit (.log msg)

/-- Models `console.error(msg)`. -/
def consoleError (msg : String) (s : State) : State := s.emit (.error msg)

/-- Models `axios.get(url, { headers })`. -/
def axiosGet (env : Env) (url auth : String) (s : State) : Outcome (List Repo) :=
  let r := env.httpGet s url auth
  (r, s.emit (.httpGet url auth r))

/-- Models `axios.delete(url, { headers })`. -/
def axiosDelete (env : Env) (url auth : String) (s : State) : Outcome Unit :=
  let r := env.httpDelete s url auth
  (r, s.emit (.httpDelete url auth r))

/-- Models `axios.post(url, { name, private }, { headers })`, projected on
`response.data.html_url`. -/
def axiosPost (env : Env) (url name : String) (priv : Bool) (auth : String) (s : State) :
    Outcome JsVal :=
  let r := env.httpPost s url name priv auth
  (r, s.emit (.httpPost url name priv auth r))

/-- Models `execSync(cmd)`, run in the current working directory. -/
def execSync (env : Env) (cmd : String) (s : State) : Outcome Unit :=
  let r := env.execSync s cmd
  (r, s.emit (.exec s.cwd cmd r))

/-- Models `process.chdir(dir)`: when the call succeeds the process is in the
directory the file system resolved `dir` to, otherwise it stays where it was. -/
def chdir (env : Env) (dir : String) (s : State) : Outcome Unit :=
  let r := env.chdir s dir
  match r with
  | .ok p => (.ok (), { s.emit (.chdir s.cwd dir r) with cwd := p })
  | .error e => (.error e, s.emit (.chdir s.cwd dir r))

/-- The authorization header built at lines 78 to 80, 115 to 117 and 143 to 145. -/
def bearer (accessToken : JsVal) : String := "Bearer " ++ accessToken.interp

/-- The endpoint used for listing and creating repositories. -/
def userReposUrl : String := "https://api.github.com/user/repos"

/-- Models one `inquirer.prompt` call with a single question of type `input`. -/
def promptInput (env : Env) (message : String) (s : State) : Outcome String :=
  let r := env.promptInput s message
  (r, s.emit (.promptInput message r))

/-- Models one `inquirer.prompt` call with a single question of type `confirm`. -/
def promptConfirm (env : Env) (message : String) (s : State) : Outcome Bool :=
  let r := env.promptConfirm s message
  (r, s.emit (.promptConfirm message r))

/-- Models the menu prompt of lines 274 to 286. -/
def promptFeature (env : Env) (s : State) : Outcome Feature :=
  let r := env.promptFeature s
  (r, s.emit (.promptFeature r))

/-- Models the four-question prompt of lines 163 to 184. -/
def promptMigration (env : Env) (s : State) : Outcome MigrationRequest :=
  let r := env.promptMigration s
  (r, s.emit (.promptMigration r))

/-! ## The program -/

/-- Source: `getGitHubAccessToken`, lines 33 to 42. -/
def getGitHubAccessToken (env : Env) (s : State) : Outcome String :=
  promptInput env "Enter your GitHub access token:" s

/-- Source: `getUsername`, lines 44 to 53. -/
def getUsername (env : Env) (s : State) : Outcome String :=
  promptInput env "Enter your GitHub username:" s

/-- The console output of lines 13 to 21. -/
def homeScreenText (s : State) : State :=
  let s := s.emit .consoleClear
  let s := s.emit (.banner "GitCommander")
  let s := consoleLog " Welcome to GitCommander - GitHub Repository Management CLI \n" s
  let s := consoleLog "This CLI application helps you manage GitHub repositories with ease.\n" s
  let s := consoleLog "Before you begin, generate a GitHub access token:" s
  let s := consoleLog "1. Log in to GitHub." s
  let s := consoleLog
    "2. Go to \"Settings\" > \"Developer settings\" > \"Personal access tokens (classic)\"." s
  let s := consoleLog "3. Generate a new token with required permissions." s
  consoleLog "4. Copy the token and paste it here when prompted.\n" s

/-- Lines 27 to 29: capture the username when it is still falsy. -/
def captureUsername (env : Env) (s : State) : Outcome Unit :=
  if !s.username.truthy then
    match getUsername env s with
    | (.error e, s) => (.error e, s)
    | (.ok a, s) => (.ok (), { s with username := .str a })
  else (.ok (), s)

/-- Lines 23 to 25: capture the access token when it is still falsy. -/
def captureAccessToken (env : Env) (s : State) : Outcome Unit :=
  if !s.accessToken.truthy then
    match getGitHubAccessToken env s with
    | (.error e, s) => (.error e, s)
    | (.ok a, s) => (.ok (), { s with accessToken := .str a })
  else (.ok (), s)

/-- Source: `showHomeScreen`, lines 12 to 31. -/
def showHomeScreen (env : Env) (s : State) : Outcome Unit :=
  match captureAccessToken env (homeScreenText s) with
  | (.error e, s) => (.error e, s)
  | (.ok (), s) => captureUsername env s

/-- Source: `confirmAction`, lines 55 to 65. -/
def confirmAction (env : Env) (message : String) (s : State) : Outcome Bool :=
  promptConfirm env message s

/-- The question asked by `deleteAllRepositories` at line 70. -/
def deleteConfirmMessage : String :=
  "Are you sure you want to delete all your repositories? This action cannot be undone."

/-- The URL built at line 88. -/
def deleteUrl (username : JsVal) (repo : Repo) : String :=
  "https://api.github.com/repos/" ++ username.interp ++ "/" ++ repo.name

/-- The loop of lines 86 to 96.  Its body cannot throw: the only fallible call is
inside its own `try`. -/
def deleteLoop (env : Env) (username : JsVal) (auth : String) : List Repo → State → State
  | [], s => s
  | repo :: rest, s =>
    match axiosDelete env (deleteUrl username repo) auth s with
    | (.ok (), s) =>
      deleteLoop env username auth rest
        (consoleLog ("Repository " ++ repo.name ++ " deleted successfully!") s)
    | (.error e, s) =>
      deleteLoop env username auth rest
        (consoleError ("Error deleting repository " ++ repo.name ++ ": " ++ e) s)

/-- Source: `deleteAllRepositories`, lines 67 to 100. -/
def deleteAllRepositories (env : Env) (username accessToken : JsVal) (s : State) :
    Outcome Unit :=
  let s := consoleLog "\nDelete All Repositories" s
  match confirmAction env deleteConfirmMessage s with
  | (.error e, s) => (.error e, s)
  | (.ok confirm, s) =>
    if !confirm then
      (.ok (), consoleLog "Action aborted." s)
    else
      match axiosGet env userReposUrl (bearer accessToken) s with
      | (.ok repositories, s) =>
        (.ok (), deleteLoop env username (bearer accessToken) repositories s)
      | (.error e, s) =>
        (.ok (), consoleError ("Error fetching repositories: " ++ e) s)

/-- The question asked by `cloneAllRepositories` at line 109. -/
def cloneDestinationMessage : String :=
  "Enter the folder location where you want to clone the repositories:"

/-- The path built at line 128. -/
def clonePathOf (destinationPath : String) (repo : Repo) : String :=
  destinationPath ++ "/" ++ repo.name

/-- The command built at line 129. -/
def cloneCommand (destinationPath : String) (repo : Repo) : String :=
  "git clone " ++ repo.clone_url ++ " " ++ clonePathOf destinationPath repo

/-- The loop of lines 123 to 134. -/
def cloneLoop (env : Env) (destinationPath : String) : List Repo → State → State
  | [], s => s
  | repo :: rest, s =>
    match execSync env (cloneCommand destinationPath repo) s with
    | (.ok (), s) =>
      cloneLoop env destinationPath rest
        (consoleLog ("Repository " ++ repo.name ++ " cloned successfully to "
          ++ clonePathOf destinationPath repo) s)
    | (.error e, s) =>
      cloneLoop env destinationPath rest
        (consoleError ("Error cloning repository " ++ repo.name ++ ": " ++ e) s)

/-- Source: `cloneAllRepositories`, lines 102 to 138.  The `username` parameter is
not used by the body. -/
def cloneAllRepositories (env : Env) (_username accessToken : JsVal) (s : State) :
    Outcome Unit :=
  let s := consoleLog "\nClone All Repositories" s
  match promptInput env cloneDestinationMessage s with
  | (.error e, s) => (.error e, s)
  | (.ok destinationPath, s) =>
    match axiosGet env userReposUrl (bearer accessToken) s with
    | (.ok repositories, s) => (.ok (), cloneLoop env destinationPath repositories s)
    | (.error e, s) => (.ok (), consoleError ("Error fetching repositories: " ++ e) s)

/-- Source: `createNewRepository`, lines 141 to 158. -/
def createNewRepository (env : Env) (accessToken : JsVal) (repositoryName : String)
    (s : State) : Outcome JsVal :=
  match axiosPost env userReposUrl repositoryName false (bearer accessToken) s with
  | (.ok html_url, s) => (.ok html_url, s)
  | (.error e, s) =>
    (.ok .null, consoleError ("Error creating repository " ++ repositoryName ++ ": " ++ e) s)

/-- The local path of the bare clone, line 197. -/
def clonePath (req : MigrationRequest) : String := req.newRepoName ++ ".git"

/-- The command of line 201. -/
def bareCloneCmd (req : MigrationRequest) : String :=
  "git clone --bare " ++ req.sourceRepoUrl ++ " " ++ clonePath req

/-- The command of lines 211 to 218, white space included. -/
def rewriteCmd (req : MigrationRequest) : String :=
  "\n      git filter-branch --env-filter \x27\n"
    ++ "        export GIT_AUTHOR_NAME=\"" ++ req.newAuthorName ++ "\"\n"
    ++ "        export GIT_AUTHOR_EMAIL=\"" ++ req.newAuthorEmail ++ "\"\n"
    ++ "        export GIT_COMMITTER_NAME=\"" ++ req.newAuthorName ++ "\"\n"
    ++ "        export GIT_COMMITTER_EMAIL=\"" ++ req.newAuthorEmail ++ "\"\n"
    ++ "      \x27 --tag-name-filter cat -- --branches --tags\n    "

/-- The command of line 228. -/
def workingCloneCmd (req : MigrationRequest) : String :=
  "git clone " ++ clonePath req ++ " " ++ req.newRepoName

/-- The command of line 238. -/
def setUrlCmd (newRepoUrl : JsVal) : String :=
  "git remote set-url origin " ++ newRepoUrl.interp

/-- The command of line 246. -/
def pushCmd : String := "git push --mirror origin"

/-- The command of line 256. -/
def cleanupCmd (req : MigrationRequest) : String := "rm -rf " ++ clonePath req

/-- The message of line 262. -/
def successMessage : String := "\nRepository migration completed successfully."

/-- Lines 252 to 262: leave the working copy, remove the bare clone, report success. -/
def migrateFinish (env : Env) (req : MigrationRequest) (s : State) : Outcome Unit :=
  match chdir env ".." s with
  | (.error e, s) => (.error e, s)
  | (.ok (), s) =>
    let s := consoleLog "\nCleaning up..." s
    match execSync env (cleanupCmd req) s with
    | (.error e, s) => (.ok (), consoleError ("Error cleaning up: " ++ e) s)
    | (.ok (), s) => (.ok (), consoleLog successMessage s)

/-- Lines 234 to 262: enter the working copy, set its origin, push, then finish. -/
def migratePush (env : Env) (req : MigrationRequest) (newRepoUrl : JsVal) (s : State) :
    Outcome Unit :=
  match chdir env req.newRepoName s with
  | (.error e, s) => (.error e, s)
  | (.ok (), s) =>
    let s := consoleLog "\nSetting remote origin URL..." s
    match execSync env (setUrlCmd newRepoUrl) s with
    | (.error e, s) => (.ok (), consoleError ("Error setting remote origin URL: " ++ e) s)
    | (.ok (), s) =>
      let s := consoleLog "\nPushing to the new repository..." s
      match execSync env pushCmd s with
      | (.error e, s) => (.ok (), consoleError ("Error pushing to new repository: " ++ e) s)
      | (.ok (), s) => migrateFinish env req s

/-- Lines 207 to 262: enter the bare clone, rewrite its history, clone it, then push. -/
def migrateRewrite (env : Env) (req : MigrationRequest) (newRepoUrl : JsVal) (s : State) :
    Outcome Unit :=
  match chdir env (clonePath req) s with
  | (.error e, s) => (.error e, s)
  | (.ok (), s) =>
    let s := consoleLog "\nUpdating author information..." s
    match execSync env (rewriteCmd req) s with
    | (.error e, s) => (.ok (), consoleError ("Error updating author information: " ++ e) s)
    | (.ok (), s) =>
      match chdir env ".." s with
      | (.error e, s) => (.error e, s)
      | (.ok (), s) =>
        let s := consoleLog "\nCloning updated repository..." s
        match execSync env (workingCloneCmd req) s with
        | (.error e, s) =>
          (.ok (), consoleError ("Error cloning updated repository: " ++ e) s)
        | (.ok (), s) => migratePush env req newRepoUrl s

/-- Source: `migrateRepository`, lines 160 to 263.  The `username` parameter is not
used by the body.  The straight-line body is cut into `migrateRewrite`,
`migratePush` and `migrateFinish` at its `process.chdir` calls. -/
def migrateRepository (env : Env) (_username accessToken : JsVal) (s : State) :
    Outcome Unit :=
  let s := consoleLog "\nMigrate Repository" s
  match promptMigration env s with
  | (.error e, s) => (.error e, s)
  | (.ok req, s) =>
    match createNewRepository env accessToken req.newRepoName s with
    | (.error e, s) => (.error e, s)
    | (.ok newRepoUrl, s) =>
      if !newRepoUrl.truthy then
        (.ok (), consoleError "Repository creation failed." s)
      else
        let s := consoleLog "\nCloning source repository..." s
        match execSync env (bareCloneCmd req) s with
        | (.error e, s) =>
          (.ok (), consoleError ("Error cloning source repository: " ++ e) s)
        | (.ok (), s) => migrateRewrite env req newRepoUrl s

/-- The call sites of lines 298 to 304, each marked by a `call` event. -/
def dispatch (env : Env) (selectedFeature : Feature) (s : State) : Outcome Unit :=
  match selectedFeature with
  | .clone =>
    cloneAllRepositories env s.username s.accessToken
      (s.emit (.call .clone s.username s.accessToken s.cwd))
  | .delete =>
    deleteAllRepositories env s.username s.accessToken
      (s.emit (.call .delete s.username s.accessToken s.cwd))
  | .migrate =>
    migrateRepository env s.username s.accessToken
      (s.emit (.call .migrate s.username s.accessToken s.cwd))
  | .exit => (.ok (), s)

/-- The question of line 310. -/
def backToHomeMessage : String := "Do you want to go back to the home screen?"

/-- The `try` block of lines 270 to 318; the result is the value of
`continueRunning` after it. -/
def mainBody (env : Env) (s : State) : Outcome Bool :=
  match showHomeScreen env s with
  | (.error e, s) => (.error e, s)
  | (.ok (), s) =>
    let s := consoleLog "\n" s
    match promptFeature env s with
    | (.error e, s) => (.error e, s)
    | (.ok selectedFeature, s) =>
      if selectedFeature = .exit then
        (.ok false, consoleLog "Exiting GitCommander. Goodbye!" s)
      else
        let s := s.emit .consoleClear
        let s := s.emit (.banner "GitCommander")
        let s := consoleLog ("Selected Feature: " ++ selectedFeature.text) s
        match dispatch env selectedFeature s with
        | (.error e, s) => (.error e, s)
        | (.ok (), s) =>
          match promptConfirm env backToHomeMessage s with
          | (.error e, s) => (.error e, s)
          | (.ok backToHome, s) => (.ok backToHome, s)

/-- One turn of the `while` loop of `main`, the `catch` of lines 319 to 321
included; the result is the value of `continueRunning` after it. -/
def mainIteration (env : Env) (s : State) : Bool × State :=
  match mainBody env s with
  | (.ok continueRunning, s) => (continueRunning, s)
  | (.error e, s) => (true, s.emit (.errorWith "\nAn error occurred:" e))

/-- The `while (continueRunning)` loop of `main`, cut off after `fuel` turns. -/
def mainLoop (env : Env) : Nat → State → State
  | 0, s => s
  | fuel + 1, s =>
    match mainIteration env s with
    | (true, s) => mainLoop env fuel s
    | (false, s) => s

/-- Source: `main`, lines 266 to 323, started in directory `cwd` and observed for at
most `fuel` turns of its loop. -/
def main (env : Env) (fuel : Nat) (cwd : Path) : State :=
  mainLoop env fuel (State.init cwd)

/-! ## Observations on traces -/

/-- The events added to the trace between state `s` and a later state `t`. -/
def eventsSince (s t : State) : List Event := t.trace.drop s.trace.length

/-- An external action, without the answer it received. -/
inductive Action where
  | get (url auth : String)
  | delete (url auth : String)
  | post (url name : String) (priv : Bool) (auth : String)
  | exec (cwd : Path) (cmd : String)
  deriving DecidableEq, Repr

/-- The external action an event stands for, if it is one. -/
def Event.action? : Event → Option Action
  | .httpGet url auth _ => some (.get url auth)
  | .httpDelete url auth _ => some (.delete url auth)
  | .httpPost url name priv auth _ => some (.post url name priv auth)
  | .exec cwd cmd _ => some (.exec cwd cmd)
  | _ => none

/-- The external actions of a trace, in order. -/
def actions (tr : List Event) : List Action := tr.filterMap Event.action?

/-- The commands run through `execSync` in a trace, in order. -/
def commands (tr : List Event) : List String :=
  tr.filterMap fun
    | .exec _ cmd _ => some cmd
    | _ => none

/-- The console output of a trace, in order. -/
def messages (tr : List Event) : List String :=
  tr.filterMap fun
    | .log m => some m
    | .error m => some m
    | _ => none

/-- The results of the commands run through `execSync` in a trace, in order. -/
def execResults (tr : List Event) : List (Except String Unit) :=
  tr.filterMap fun
    | .exec _ _ r => some r
    | _ => none

/-- The arguments and working directory of the operations dispatched by `main` in a
trace, in order: `(username, accessToken, cwd)`. -/
def callArgs (tr : List Event) : List (JsVal × JsVal × Path) :=
  tr.filterMap fun
    | .call _ u t c => some (u, t, c)
    | _ => none

/-- Coarse classification of events. -/
inductive Tag where
  | console
  | prompt
  | get
  | delete
  | post
  | exec
  | chdir
  | call
  deriving DecidableEq, Repr

/-- The class of an event. -/
def Event.tag : Event → Tag
  | .consoleClear => .console
  | .banner _ => .console
  | .log _ => .console
  | .error _ => .console
  | .errorWith _ _ => .console
  | .promptInput _ _ => .prompt
  | .promptConfirm _ _ => .prompt
  | .promptFeature _ => .prompt
  | .promptMigration _ => .prompt
  | .httpGet _ _ _ => .get
  | .httpDelete _ _ _ => .delete
  | .httpPost _ _ _ _ _ => .post
  | .exec _ _ _ => .exec
  | .chdir _ _ _ => .chdir
  | .call _ _ _ _ => .call

/-- The value `createNewRepository` hands back for an answer of the create endpoint. -/
def createResult : Except String JsVal → JsVal
  | .ok html_url => html_url
  | .error _ => .null

/-- Whether the external call recorded by an event succeeded; for the create call
this means that it produced a truthy URL.  Console output always counts. -/
def Event.succeeded : Event → Bool
  | .promptInput _ r => r.toBool
  | .promptConfirm _ r => r.toBool
  | .promptFeature r => r.toBool
  | .promptMigration r => r.toBool
  | .httpGet _ _ r => r.toBool
  | .httpDelete _ _ r => r.toBool
  | .httpPost _ _ _ _ r => (createResult r).truthy
  | .exec _ _ r => r.toBool
  | .chdir _ _ r => r.toBool
  | _ => true

/-- The directories entered by the successful `process.chdir` calls of a trace, in
order. -/
def enteredDirs (tr : List Event) : List Path :=
  tr.filterMap fun
    | .chdir _ _ (.ok p) => some p
    | _ => none

/-- The `process.chdir` calls of a trace, in order: the directory each was made in
and its argument. -/
def dirChanges (tr : List Event) : List (Path × String) :=
  tr.filterMap fun
    | .chdir c dir _ => some (c, dir)
    | _ => none

/-- The working directory after the events `tr`, for a process that was in `cwd`
before them: the directory entered by the last successful `process.chdir`. -/
def cwdAfter (cwd : Path) (tr : List Event) : Path :=
  tr.foldl (fun c ev =>
    match ev with
    | .chdir _ _ (.ok p) => p
    | _ => c) cwd

/-- Whether an event involves no symbolic link: it is not a directory change, or the
change failed, or it ended where lexical resolution leads. -/
def Event.lexical : Event → Bool
  | .chdir c dir (.ok p) => decide (p = resolve c dir)
  | _ => true

/-- The answers given to the input prompt with the given message in a trace, in
order. -/
def answers (message : String) (tr : List Event) : List String :=
  tr.filterMap fun
    | .promptInput m (.ok a) => if m = message then some a else none
    | _ => none

/-- The value a session variable has when it is the latest answer to its prompt, and
null when the prompt was never answered. -/
def latestAnswer (message : String) (tr : List Event) : JsVal :=
  match (answers message tr).getLast? with
  | some a => .str a
  | none => .null

/-- The external actions of a migration in which every step succeeds, started in
directory `cwd`: create, bare clone, rewrite, clone, set origin, push, clean up.
`dirs` lists the directories entered by the four directory changes of the run: the
rewrite runs in the first, the clone in the second, set-url and push in the third
and the cleanup in the fourth. -/
def migrationActions (accessToken : JsVal) (cwd : Path) (req : MigrationRequest)
    (newRepoUrl : JsVal) (dirs : List Path) : List Action :=
  [ .post "https://api.github.com/user/repos" req.newRepoName false
      ("Bearer " ++ accessToken.interp),
    .exec cwd ("git clone --bare " ++ req.sourceRepoUrl ++ " " ++ (req.newRepoName ++ ".git")),
    .exec (dirs.getD 0 [])
      ("\n      git filter-branch --env-filter \x27\n"
        ++ "        export GIT_AUTHOR_NAME=\"" ++ req.newAuthorName ++ "\"\n"
        ++ "        export GIT_AUTHOR_EMAIL=\"" ++ req.newAuthorEmail ++ "\"\n"
        ++ "        export GIT_COMMITTER_NAME=\"" ++ req.newAuthorName ++ "\"\n"
        ++ "        export GIT_COMMITTER_EMAIL=\"" ++ req.newAuthorEmail ++ "\"\n"
        ++ "      \x27 --tag-name-filter cat -- --branches --tags\n    "),
    .exec (dirs.getD 1 [])
      ("git clone " ++ (req.newRepoName ++ ".git") ++ " " ++ req.newRepoName),
    .exec (dirs.getD 2 []) ("git remote set-url origin " ++ newRepoUrl.interp),
    .exec (dirs.getD 2 []) "git push --mirror origin",
    .exec (dirs.getD 3 []) ("rm -rf " ++ (req.newRepoName ++ ".git")) ]

/-- The external steps of a migration that follow the creation of the remote
repository and precede the cleanup. -/
inductive MigrationStep where
  | cloneSourceBare
  | rewriteHistory
  | cloneBareToWorkingCopy
  | setRemoteOrigin
  | mirrorPush
  deriving DecidableEq, Repr

/-- Position of a step among the commands of a migration, from zero. -/
def MigrationStep.index : MigrationStep → Nat
  | .cloneSourceBare => 0
  | .rewriteHistory => 1
  | .cloneBareToWorkingCopy => 2
  | .setRemoteOrigin => 3
  | .mirrorPush => 4

/-- A name that is one path component: not empty, without a slash, and neither of
the two special entries. -/
def SingleComponent (name : String) : Prop :=
  name ≠ "" ∧ name ≠ "." ∧ name ≠ ".." ∧ '/' ∉ name.data

/-- The state `t` differs from `s` by the events `l` and the working directory `c`;
the session variables are the same. -/
def Reaches (s : State) (l : List Event) (c : Path) (t : State) : Prop :=
  t.trace = s.trace ++ l ∧ t.cwd = c ∧ t.accessToken = s.accessToken ∧ t.username = s.username

/-! ## The runs of `migrateRepository`

Each constructor below is one path through the function: the events it adds to the
trace, what it returns or throws, and the working directory it leaves. -/

/-- Paths through lines 252 to 262, entered in directory `cwd`. -/
inductive FinishRun (req : MigrationRequest) (cwd : Path) :
    List Event → Except String Unit → Path → Prop where
  | chdirThrows (e : String) :
    FinishRun req cwd [.chdir cwd ".." (.error e)] (.error e) cwd
  | cleanupFails (p : Path) (e : String) :
    FinishRun req cwd
      [.chdir cwd ".." (.ok p), .log "\nCleaning up...",
        .exec p (cleanupCmd req) (.error e),
        .error ("Error cleaning up: " ++ e)]
      (.ok ()) p
  | done (p : Path) :
    FinishRun req cwd
      [.chdir cwd ".." (.ok p), .log "\nCleaning up...",
        .exec p (cleanupCmd req) (.ok ()),
        .log successMessage]
      (.ok ()) p

/-- Paths through lines 234 to 262, entered in directory `cwd`. -/
inductive PushRun (req : MigrationRequest) (url : JsVal) (cwd : Path) :
    List Event → Except String Unit → Path → Prop where
  | chdirThrows (e : String) :
    PushRun req url cwd [.chdir cwd req.newRepoName (.error e)] (.error e) cwd
  | setUrlFails (p : Path) (e : String) :
    PushRun req url cwd
      [.chdir cwd req.newRepoName (.ok p), .log "\nSetting remote origin URL...",
        .exec p (setUrlCmd url) (.error e),
        .error ("Error setting remote origin URL: " ++ e)]
      (.ok ()) p
  | pushFails (p : Path) (e : String) :
    PushRun req url cwd
      [.chdir cwd req.newRepoName (.ok p), .log "\nSetting remote origin URL...",
        .exec p (setUrlCmd url) (.ok ()),
        .log "\nPushing to the new repository...",
        .exec p pushCmd (.error e),
        .error ("Error pushing to new repository: " ++ e)]
      (.ok ()) p
  | pushed (p : Path) (l : List Event) (r : Except String Unit) (c : Path)
      (h : FinishRun req p l r c) :
    PushRun req url cwd
      ([.chdir cwd req.newRepoName (.ok p), .log "\nSetting remote origin URL...",
        .exec p (setUrlCmd url) (.ok ()),
        .log "\nPushing to the new repository...",
        .exec p pushCmd (.ok ())] ++ l)
      r c

/-- Paths through lines 207 to 262, entered in directory `cwd`. -/
inductive RewriteRun (req : MigrationRequest) (url : JsVal) (cwd : Path) :
    List Event → Except String Unit → Path → Prop where
  | chdirThrows (e : String) :
    RewriteRun req url cwd [.chdir cwd (clonePath req) (.error e)] (.error e) cwd
  | rewriteFails (p : Path) (e : String) :
    RewriteRun req url cwd
      [.chdir cwd (clonePath req) (.ok p), .log "\nUpdating author information...",
        .exec p (rewriteCmd req) (.error e),
        .error ("Error updating author information: " ++ e)]
      (.ok ()) p
  | chdirBackThrows (p : Path) (e : String) :
    RewriteRun req url cwd
      [.chdir cwd (clonePath req) (.ok p), .log "\nUpdating author information...",
        .exec p (rewriteCmd req) (.ok ()),
        .chdir p ".." (.error e)]
      (.error e) p
  | cloneFails (p q : Path) (e : String) :
    RewriteRun req url cwd
      [.chdir cwd (clonePath req) (.ok p), .log "\nUpdating author information...",
        .exec p (rewriteCmd req) (.ok ()),
        .chdir p ".." (.ok q), .log "\nCloning updated repository...",
        .exec q (workingCloneCmd req) (.error e),
        .error ("Error cloning updated repository: " ++ e)]
      (.ok ()) q
  | cloned (p q : Path) (l : List Event) (r : Except String Unit) (c : Path)
      (h : PushRun req url q l r c) :
    RewriteRun req url cwd
      ([.chdir cwd (clonePath req) (.ok p), .log "\nUpdating author information...",
        .exec p (rewriteCmd req) (.ok ()),
        .chdir p ".." (.ok q), .log "\nCloning updated repository...",
        .exec q (workingCloneCmd req) (.ok ())]
        ++ l)
      r c

/-- Paths through `migrateRepository`, called with `accessToken` in directory `cwd`. -/
inductive MigrateRun (accessToken : JsVal) (cwd : Path) :
    List Event → Except String Unit → Path → Prop where
  | promptRejects (e : String) :
    MigrateRun accessToken cwd
      [.log "\nMigrate Repository", .promptMigration (.error e)] (.error e) cwd
  | createThrows (req : MigrationRequest) (e : String) :
    MigrateRun accessToken cwd
      [.log "\nMigrate Repository", .promptMigration (.ok req),
        .httpPost userReposUrl req.newRepoName false (bearer accessToken) (.error e),
        .error ("Error creating repository " ++ req.newRepoName ++ ": " ++ e),
        .error "Repository creation failed."]
      (.ok ()) cwd
  | createEmpty (req : MigrationRequest) (url : JsVal) (h : url.truthy = false) :
    MigrateRun accessToken cwd
      [.log "\nMigrate Repository", .promptMigration (.ok req),
        .httpPost userReposUrl req.newRepoName false (bearer accessToken) (.ok url),
        .error "Repository creation failed."]
      (.ok ()) cwd
  | bareCloneFails (req : MigrationRequest) (url : JsVal) (h : url.truthy = true)
      (e : String) :
    MigrateRun accessToken cwd
      [.log "\nMigrate Repository", .promptMigration (.ok req),
        .httpPost userReposUrl req.newRepoName false (bearer accessToken) (.ok url),
        .log "\nCloning source repository...",
        .exec cwd (bareCloneCmd req) (.error e),
        .error ("Error cloning source repository: " ++ e)]
      (.ok ()) cwd
  | bareCloned (req : MigrationRequest) (url : JsVal) (h : url.truthy = true)
      (l : List Event) (r : Except String Unit) (c : Path)
      (hrun : RewriteRun req url cwd l r c) :
    MigrateRun accessToken cwd
      ([.log "\nMigrate Repository", .promptMigration (.ok req),
        .httpPost userReposUrl req.newRepoName false (bearer accessToken) (.ok url),
        .log "\nCloning source repository...",
        .exec cwd (bareCloneCmd req) (.ok ())] ++ l)
      r c

/-- Events of the loop of `deleteAllRepositories` over `repos`: one DELETE per
repository, in order, and console output. -/
def DeleteLoopEvents (username : JsVal) (auth : String) (repos : List Repo)
    (l : List Event) : Prop :=
  actions l = repos.map (fun r => Action.delete (deleteUrl username r) auth)
    ∧ ∀ e ∈ l, e.tag = .delete ∨ e.tag = .console

/-- Paths through `deleteAllRepositories`. -/
inductive DeleteRun (username accessToken : JsVal) :
    List Event → Except String Unit → Prop where
  | promptRejects (e : String) :
    DeleteRun username accessToken
      [.log "\nDelete All Repositories", .promptConfirm deleteConfirmMessage (.error e)]
      (.error e)
  | declined :
    DeleteRun username accessToken
      [.log "\nDelete All Repositories", .promptConfirm deleteConfirmMessage (.ok false),
        .log "Action aborted."]
      (.ok ())
  | listFails (e : String) :
    DeleteRun username accessToken
      [.log "\nDelete All Repositories", .promptConfirm deleteConfirmMessage (.ok true),
        .httpGet userReposUrl (bearer accessToken) (.error e),
        .error ("Error fetching repositories: " ++ e)]
      (.ok ())
  | listed (repos : List Repo) (l : List Event)
      (h : DeleteLoopEvents username (bearer accessToken) repos l) :
    DeleteRun username accessToken
      ([.log "\nDelete All Repositories", .promptConfirm deleteConfirmMessage (.ok true),
        .httpGet userReposUrl (bearer accessToken) (.ok repos)] ++ l)
      (.ok ())

/-- Events of the loop of `cloneAllRepositories` over `repos`, run in directory
`cwd`: one clone command per repository, in order, and console output. -/
def CloneLoopEvents (cwd : Path) (destinationPath : String) (repos : List Repo)
    (l : List Event) : Prop :=
  actions l = repos.map (fun r => Action.exec cwd (cloneCommand destinationPath r))
    ∧ ∀ e ∈ l, e.tag = .exec ∨ e.tag = .console

/-- Paths through `cloneAllRepositories`, called in directory `cwd`. -/
inductive CloneRun (accessToken : JsVal) (cwd : Path) :
    List Event → Except String Unit → Prop where
  | promptRejects (e : String) :
    CloneRun accessToken cwd
      [.log "\nClone All Repositories", .promptInput cloneDestinationMessage (.error e)]
      (.error e)
  | listFails (destinationPath e : String) :
    CloneRun accessToken cwd
      [.log "\nClone All Repositories",
        .promptInput cloneDestinationMessage (.ok destinationPath),
        .httpGet userReposUrl (bearer accessToken) (.error e),
        .error ("Error fetching repositories: " ++ e)]
      (.ok ())
  | listed (destinationPath : String) (repos : List Repo) (l : List Event)
      (h : CloneLoopEvents cwd destinationPath repos l) :
    CloneRun accessToken cwd
      ([.log "\nClone All Repositories",
        .promptInput cloneDestinationMessage (.ok destinationPath),
        .httpGet userReposUrl (bearer accessToken) (.ok repos)] ++ l)
      (.ok ())

/-! ## Invariants of the main loop -/

/-- Every operation dispatched in the events `tr`, which follow the events `pre`, was
given the latest answers to the two session prompts as they stood at that moment. -/
def CallsFollowAnswers (pre : List Event) : List Event → Prop
  | [] => True
  | ev :: rest =>
    (match ev with
      | .call _ u t _ =>
        t = latestAnswer "Enter your GitHub access token:" pre
          ∧ u = latestAnswer "Enter your GitHub username:" pre
      | _ => True)
    ∧ CallsFollowAnswers (pre ++ [ev]) rest

/-- The session variables are the latest answers to their prompts, and so were the
arguments of every operation dispatched so far. -/
def SessionTracksAnswers (s : State) : Prop :=
  s.accessToken = latestAnswer "Enter your GitHub access token:" s.trace
    ∧ s.username = latestAnswer "Enter your GitHub username:" s.trace
    ∧ CallsFollowAnswers [] s.trace

/-- Events that touch neither the session nor the working directory: no dispatch, no
directory change, no input prompt. -/
def Event.quiet : Event → Bool
  | .call _ _ _ _ => false
  | .chdir _ _ _ => false
  | .promptInput _ _ => false
  | _ => true

/-- From `s` to `t` the trace only grows, the working directory moves exactly as the
directory changes in the new events say, and the session keeps tracking the
answers. -/
def Step (s t : State) : Prop :=
  (∃ l, t.trace = s.trace ++ l ∧ t.cwd = cwdAfter s.cwd l)
    ∧ (SessionTracksAnswers s → SessionTracksAnswers t)

/-! ## Sample environments -/

/-- Two repositories of the account `bob`. -/
def sampleRepos : List Repo :=
  [⟨"alpha", "https://github.com/bob/alpha.git"⟩, ⟨"beta", "https://github.com/bob/beta.git"⟩]

/-- A migration request. -/
def sampleRequest : MigrationRequest :=
  { sourceRepoUrl := "https://github.com/alice/old.git", newRepoName := "new",
    newAuthorName := "Bob", newAuthorEmail := "bob@example.com" }

/-- An environment in which every call succeeds: the operator is `bob` with token
`tok`, confirms everything and leaves at the first menu; the account has the two
repositories of `sampleRepos`; no directory is a symbolic link. -/
def baseEnv : Env :=
  { promptInput := fun _ m =>
      .ok (if m = "Enter your GitHub access token:" then "tok"
        else if m = "Enter your GitHub username:" then "bob" else "./repositories")
    promptConfirm := fun _ _ => .ok true
    promptFeature := fun _ => .ok .exit
    promptMigration := fun _ => .ok sampleRequest
    httpGet := fun _ _ _ => .ok sampleRepos
    httpDelete := fun _ _ _ => .ok ()
    httpPost := fun _ _ _ _ _ => .ok (.str "https://github.com/bob/new")
    execSync := fun _ _ => .ok ()
    chdir := fun s dir => .ok (resolve s.cwd dir) }

/-- As `baseEnv`, but the DELETE of repository `alpha` is refused. -/
def envDeleteFails : Env :=
  { baseEnv with
    httpDelete := fun _ url _ =>
      if url = "https://api.github.com/repos/bob/alpha" then .error "Forbidden" else .ok () }

/-- As `baseEnv`, but the operator declines every confirmation. -/
def envDecline : Env := { baseEnv with promptConfirm := fun _ _ => .ok false }

/-- As `baseEnv`, but every command fails whose text is `cmd`. -/
def envCommandFails (cmd : String) : Env :=
  { baseEnv with execSync := fun _ c => if c = cmd then .error "exit status 1" else .ok () }

/-- As `baseEnv`, but the create call is rejected. -/
def envCreateFails : Env :=
  { baseEnv with httpPost := fun _ _ _ _ _ => .error "Unprocessable Entity" }

/-- The process state at start-up in the directory `/home`. -/
def startState : State := State.init ["home"]

/-- As `baseEnv`, but the operator leaves the token prompt empty as long as no
username is known and types `tok2` afterwards, always picks the delete operation,
declines the deletion and asks to go back to the home screen. -/
def envEmptyToken : Env :=
  { baseEnv with
    promptInput := fun s m =>
      if m = "Enter your GitHub access token:" then
        .ok (if s.username.truthy then "tok2" else "")
      else .ok "bob"
    promptFeature := fun _ => .ok .delete
    promptConfirm := fun _ m => .ok (decide (m = backToHomeMessage)) }

/-- As `baseEnv`, but the history rewrite fails and the operator first picks the
migration and, once the process has left `/home`, the bulk clone. -/
def envMigrateThenClone : Env :=
  { envCommandFails (rewriteCmd sampleRequest) with
    promptFeature := fun s => if s.cwd = ["home"] then .ok .migrate else .ok .clone }

/-- A state in which both session variables are set. -/
def loggedInState : State :=
  { startState with accessToken := .str "tok", username := .str "bob" }

/-- As `baseEnv`, but the entry `new` of every directory is a symbolic link to
`/elsewhere`. -/
def envSymlink : Env :=
  { baseEnv with
    chdir := fun s dir => .ok (if dir = "new" then ["elsewhere"] else resolve s.cwd dir) }

/-! ## Basic facts about states and primitives -/

@[simp] theorem emit_trace (s : State) (e : Event) : (s.emit e).trace = s.trace ++ [e] := rfl
@[simp] theorem emit_cwd (s : State) (e : Event) : (s.emit e).cwd = s.cwd := rfl
@[simp] theorem emit_accessToken (s : State) (e : Event) :
    (s.emit e).accessToken = s.accessToken := rfl
@[simp] theorem emit_username (s : State) (e : Event) : (s.emit e).username = s.username := rfl

theorem eventsSince_of_append {s t : State} {l : List Event}
    (h : t.trace = s.trace ++ l) : eventsSince s t = l := by
  simp [eventsSince, h]

theorem Reaches.trans {s t u : State} {l l2 : List Event} {c c2 : Path}
    (h : Reaches s l c t) (h2 : Reaches t l2 c2 u) : Reaches s (l ++ l2) c2 u := by
  obtain ⟨a, -, b, d⟩ := h
  obtain ⟨a2, b2, c2, d2⟩ := h2
  exact ⟨by rw [a2, a, List.append_assoc], b2, by rw [c2, b], by rw [d2, d]⟩

theorem Reaches.emit (s : State) (e : Event) : Reaches s [e] s.cwd (s.emit e) :=
  ⟨rfl, rfl, rfl, rfl⟩

theorem Reaches.log {s t : State} {l : List Event} {c : Path} (h : Reaches s l c t)
    (m : String) : Reaches s (l ++ [.log m]) c (consoleLog m t) := by
  have := h.trans (Reaches.emit t (.log m))
  rwa [h.2.1] at this

theorem Reaches.error {s t : State} {l : List Event} {c : Path} (h : Reaches s l c t)
    (m : String) : Reaches s (l ++ [.error m]) c (consoleError m t) := by
  have := h.trans (Reaches.emit t (.error m))
  rwa [h.2.1] at this

theorem execSync_ok {env : Env} {cmd : String} {s t : State} {u : Unit}
    (h : execSync env cmd s = (.ok u, t)) : Reaches s [.exec s.cwd cmd (.ok ())] s.cwd t := by
  simp only [execSync, Prod.mk.injEq] at h
  obtain ⟨h1, rfl⟩ := h
  rw [h1]
  exact ⟨rfl, rfl, rfl, rfl⟩

theorem execSync_error {env : Env} {cmd : String} {s t : State} {e : String}
    (h : execSync env cmd s = (.error e, t)) :
    Reaches s [.exec s.cwd cmd (.error e)] s.cwd t := by
  simp only [execSync, Prod.mk.injEq] at h
  obtain ⟨h1, rfl⟩ := h
  rw [h1]
  exact ⟨rfl, rfl, rfl, rfl⟩

theorem chdir_ok {env : Env} {dir : String} {s t : State} {u : Unit}
    (h : chdir env dir s = (.ok u, t)) :
    ∃ p, Reaches s [.chdir s.cwd dir (.ok p)] p t := by
  simp only [chdir] at h
  cases hr : env.chdir s dir with
  | error e => rw [hr] at h; simp at h
  | ok p =>
    rw [hr] at h
    simp only [Prod.mk.injEq] at h
    obtain ⟨-, rfl⟩ := h
    exact ⟨p, rfl, rfl, rfl, rfl⟩

theorem chdir_error {env : Env} {dir : String} {s t : State} {e : String}
    (h : chdir env dir s = (.error e, t)) :
    Reaches s [.chdir s.cwd dir (.error e)] s.cwd t := by
  simp only [chdir] at h
  cases hr : env.chdir s dir with
  | error e2 =>
    rw [hr] at h
    simp only [Prod.mk.injEq, Except.error.injEq] at h
    obtain ⟨rfl, rfl⟩ := h
    exact ⟨rfl, rfl, rfl, rfl⟩
  | ok v => rw [hr] at h; simp at h

theorem migrateFinish_run (env : Env) (req : MigrationRequest) (s : State) :
    ∃ l c, FinishRun req s.cwd l (migrateFinish env req s).1 c
      ∧ Reaches s l c (migrateFinish env req s).2 := by
  unfold migrateFinish
  rcases h1 : chdir env ".." s with ⟨e | u, s1⟩
  · exact ⟨_, _, .chdirThrows e, chdir_error h1⟩
  · obtain ⟨p, hp⟩ := chdir_ok h1
    have r1 := hp.log "\nCleaning up..."
    simp only []
    rcases h2 : execSync env (cleanupCmd req) (consoleLog "\nCleaning up..." s1) with ⟨e | u, s2⟩
    · have r2 := (r1.trans (execSync_error h2)).error ("Error cleaning up: " ++ e)
      simp only [r1.2.1] at r2
      exact ⟨_, _, .cleanupFails p e, r2⟩
    · have r2 := (r1.trans (execSync_ok h2)).log successMessage
      simp only [r1.2.1] at r2
      exact ⟨_, _, .done p, r2⟩

theorem migratePush_run (env : Env) (req : MigrationRequest) (url : JsVal) (s : State) :
    ∃ l c, PushRun req url s.cwd l (migratePush env req url s).1 c
      ∧ Reaches s l c (migratePush env req url s).2 := by
  unfold migratePush
  rcases h1 : chdir env req.newRepoName s with ⟨e | u, s1⟩
  · exact ⟨_, _, .chdirThrows e, chdir_error h1⟩
  · obtain ⟨p, hp⟩ := chdir_ok h1
    have r1 := hp.log "\nSetting remote origin URL..."
    simp only []
    rcases h2 : execSync env (setUrlCmd url) (consoleLog "\nSetting remote origin URL..." s1)
      with ⟨e | u, s2⟩
    · have r2 := (r1.trans (execSync_error h2)).error ("Error setting remote origin URL: " ++ e)
      simp only [r1.2.1] at r2
      exact ⟨_, _, .setUrlFails p e, r2⟩
    · have r2 := (r1.trans (execSync_ok h2)).log "\nPushing to the new repository..."
      simp only [r1.2.1] at r2
      simp only []
      rcases h3 : execSync env pushCmd (consoleLog "\nPushing to the new repository..." s2)
        with ⟨e | u, s3⟩
      · have r3 := (r2.trans (execSync_error h3)).error ("Error pushing to new repository: " ++ e)
        simp only [r2.2.1] at r3
        exact ⟨_, _, .pushFails p e, r3⟩
      · have r3 := r2.trans (execSync_ok h3)
        simp only [r2.2.1] at r3
        simp only []
        obtain ⟨l, c, hrun, hr⟩ := migrateFinish_run env req s3
        rw [r3.2.1] at hrun
        exact ⟨_, _, .pushed p l _ c hrun, r3.trans hr⟩

theorem migrateRewrite_run (env : Env) (req : MigrationRequest) (url : JsVal) (s : State) :
    ∃ l c, RewriteRun req url s.cwd l (migrateRewrite env req url s).1 c
      ∧ Reaches s l c (migrateRewrite env req url s).2 := by
  unfold migrateRewrite
  rcases h1 : chdir env (clonePath req) s with ⟨e | u, s1⟩
  · exact ⟨_, _, .chdirThrows e, chdir_error h1⟩
  · obtain ⟨p, hp⟩ := chdir_ok h1
    have r1 := hp.log "\nUpdating author information..."
    simp only []
    rcases h2 : execSync env (rewriteCmd req) (consoleLog "\nUpdating author information..." s1)
      with ⟨e | u, s2⟩
    · have r2 := (r1.trans (execSync_error h2)).error
        ("Error updating author information: " ++ e)
      simp only [r1.2.1] at r2
      exact ⟨_, _, .rewriteFails p e, r2⟩
    · have r2 := r1.trans (execSync_ok h2)
      simp only [r1.2.1] at r2
      simp only []
      rcases h3 : chdir env ".." s2 with ⟨e | u, s3⟩
      · have r3 := r2.trans (chdir_error h3)
        simp only [r2.2.1] at r3
        exact ⟨_, _, .chdirBackThrows p e, r3⟩
      · obtain ⟨q, hq⟩ := chdir_ok h3
        have r3 := (r2.trans hq).log "\nCloning updated repository..."
        simp only [r2.2.1] at r3
        simp only []
        rcases h4 : execSync env (workingCloneCmd req)
          (consoleLog "\nCloning updated repository..." s3) with ⟨e | u, s4⟩
        · have r4 := (r3.trans (execSync_error h4)).error
            ("Error cloning updated repository: " ++ e)
          simp only [r3.2.1] at r4
          exact ⟨_, _, .cloneFails p q e, r4⟩
        · have r4 := r3.trans (execSync_ok h4)
          simp only [r3.2.1] at r4
          simp only []
          obtain ⟨l, c, hrun, hr⟩ := migratePush_run env req url s4
          rw [r4.2.1] at hrun
          exact ⟨_, _, .cloned p q l _ c hrun, r4.trans hr⟩

theorem createNewRepository_run (env : Env) (accessToken : JsVal) (name : String) (s : State) :
    (∃ url, (createNewRepository env accessToken name s).1 = .ok url
        ∧ Reaches s [.httpPost userReposUrl name false (bearer accessToken) (.ok url)] s.cwd
            (createNewRepository env accessToken name s).2)
      ∨ (∃ e, (createNewRepository env accessToken name s).1 = .ok .null
        ∧ Reaches s [.httpPost userReposUrl name false (bearer accessToken) (.error e),
              .error ("Error creating repository " ++ name ++ ": " ++ e)] s.cwd
            (createNewRepository env accessToken name s).2) := by
  simp only [createNewRepository, axiosPost]
  cases env.httpPost s userReposUrl name false (bearer accessToken) with
  | ok url => exact Or.inl ⟨url, rfl, rfl, rfl, rfl, rfl⟩
  | error e => exact Or.inr ⟨e, rfl, by simp [consoleError], rfl, rfl, rfl⟩

theorem migrateRepository_run (env : Env) (username accessToken : JsVal) (s : State) :
    ∃ l c, MigrateRun accessToken s.cwd l (migrateRepository env username accessToken s).1 c
      ∧ Reaches s l c (migrateRepository env username accessToken s).2 := by
  unfold migrateRepository
  have r0 : Reaches s [.log "\nMigrate Repository"] s.cwd (consoleLog "\nMigrate Repository" s) :=
    Reaches.emit s _
  simp only [promptMigration]
  cases env.promptMigration (consoleLog "\nMigrate Repository" s) with
  | error e =>
    exact ⟨_, _, .promptRejects e, r0.trans (Reaches.emit _ _)⟩
  | ok req =>
    have r1 := r0.trans (Reaches.emit (consoleLog "\nMigrate Repository" s)
      (.promptMigration (.ok req)))
    simp only [List.singleton_append, emit_cwd, r0.2.1] at r1
    simp only []
    rcases hc : createNewRepository env accessToken req.newRepoName
      ((consoleLog "\nMigrate Repository" s).emit (.promptMigration (.ok req))) with ⟨e | v, s2⟩
    · rcases createNewRepository_run env accessToken req.newRepoName
        ((consoleLog "\nMigrate Repository" s).emit (.promptMigration (.ok req)))
        with ⟨url, h, -⟩ | ⟨e2, h, -⟩ <;> simp [hc] at h
    · simp only []
      rcases createNewRepository_run env accessToken req.newRepoName
        ((consoleLog "\nMigrate Repository" s).emit (.promptMigration (.ok req)))
        with ⟨url, h, hr⟩ | ⟨e2, h, hr⟩
      · rw [hc] at h hr
        simp only [Except.ok.injEq] at h
        subst h
        have r2 := r1.trans hr
        simp only [emit_cwd, r0.2.1, List.cons_append, List.nil_append] at r2
        cases ht : v.truthy with
        | false =>
          simp only [Bool.not_false, if_true]
          exact ⟨_, _, .createEmpty req v ht, r2.error _⟩
        | true =>
          simp only [Bool.not_true, Bool.false_eq_true, if_false]
          have r3 := r2.log "\nCloning source repository..."
          rcases h4 : execSync env (bareCloneCmd req)
            (consoleLog "\nCloning source repository..." s2) with ⟨e | u, s4⟩
          · have r4 := (r3.trans (execSync_error h4)).error
              ("Error cloning source repository: " ++ e)
            simp only [r3.2.1] at r4
            exact ⟨_, _, .bareCloneFails req v ht e, r4⟩
          · have r4 := r3.trans (execSync_ok h4)
            simp only [r3.2.1] at r4
            simp only []
            obtain ⟨l, c, hrun, hr⟩ := migrateRewrite_run env req v s4
            rw [r4.2.1] at hrun
            exact ⟨_, _, .bareCloned req v ht l _ c hrun, r4.trans hr⟩
      · rw [hc] at h hr
        simp only [Except.ok.injEq] at h
        subst h
        have r2 := r1.trans hr
        simp only [emit_cwd, r0.2.1, List.cons_append, List.nil_append] at r2
        simp only [JsVal.truthy, Bool.not_false, if_true]
        exact ⟨_, _, .createThrows req e2, r2.error _⟩

/-! ## The bulk operations -/

theorem axiosDelete_reaches (env : Env) (url auth : String) (s : State) :
    Reaches s [.httpDelete url auth (axiosDelete env url auth s).1] s.cwd
      (axiosDelete env url auth s).2 :=
  ⟨rfl, rfl, rfl, rfl⟩

theorem deleteLoop_run (env : Env) (username : JsVal) (auth : String) (repos : List Repo) :
    ∀ s : State, ∃ l, DeleteLoopEvents username auth repos l
      ∧ Reaches s l s.cwd (deleteLoop env username auth repos s) := by
  induction repos with
  | nil => intro s; exact ⟨[], ⟨rfl, by simp⟩, by simp [deleteLoop, Reaches]⟩
  | cons r rest ih =>
    intro s
    unfold deleteLoop
    have r1 := axiosDelete_reaches env (deleteUrl username r) auth s
    rcases h1 : axiosDelete env (deleteUrl username r) auth s with ⟨e | u, s1⟩
    · rw [h1] at r1
      have r2 := r1.error ("Error deleting repository " ++ r.name ++ ": " ++ e)
      obtain ⟨l, ⟨ha, ht⟩, hr⟩ := ih (consoleError ("Error deleting repository " ++ r.name
        ++ ": " ++ e) s1)
      rw [r2.2.1] at hr
      refine ⟨_, ⟨?_, ?_⟩, r2.trans hr⟩
      · simp [actions, Event.action?] at ha ⊢
        exact ha
      · intro ev hev
        simp only [List.cons_append, List.nil_append, List.mem_cons] at hev
        rcases hev with rfl | rfl | hev
        · exact Or.inl rfl
        · exact Or.inr rfl
        · exact ht ev hev
    · rw [h1] at r1
      have r2 := r1.log ("Repository " ++ r.name ++ " deleted successfully!")
      obtain ⟨l, ⟨ha, ht⟩, hr⟩ := ih (consoleLog ("Repository " ++ r.name
        ++ " deleted successfully!") s1)
      rw [r2.2.1] at hr
      refine ⟨_, ⟨?_, ?_⟩, r2.trans hr⟩
      · simp [actions, Event.action?] at ha ⊢
        exact ha
      · intro ev hev
        simp only [List.cons_append, List.nil_append, List.mem_cons] at hev
        rcases hev with rfl | rfl | hev
        · exact Or.inl rfl
        · exact Or.inr rfl
        · exact ht ev hev

theorem execSync_reaches (env : Env) (cmd : String) (s : State) :
    Reaches s [.exec s.cwd cmd (execSync env cmd s).1] s.cwd (execSync env cmd s).2 :=
  ⟨rfl, rfl, rfl, rfl⟩

theorem cloneLoop_run (env : Env) (destinationPath : String) (repos : List Repo) :
    ∀ s : State, ∃ l, CloneLoopEvents s.cwd destinationPath repos l
      ∧ Reaches s l s.cwd (cloneLoop env destinationPath repos s) := by
  induction repos with
  | nil => intro s; exact ⟨[], ⟨rfl, by simp⟩, by simp [cloneLoop, Reaches]⟩
  | cons r rest ih =>
    intro s
    unfold cloneLoop
    have r1 := execSync_reaches env (cloneCommand destinationPath r) s
    rcases h1 : execSync env (cloneCommand destinationPath r) s with ⟨e | u, s1⟩
    · rw [h1] at r1
      have r2 := r1.error ("Error cloning repository " ++ r.name ++ ": " ++ e)
      obtain ⟨l, ⟨ha, ht⟩, hr⟩ := ih (consoleError ("Error cloning repository " ++ r.name
        ++ ": " ++ e) s1)
      rw [r2.2.1] at hr ha
      refine ⟨_, ⟨?_, ?_⟩, r2.trans hr⟩
      · simp [actions, Event.action?] at ha ⊢
        exact ha
      · intro ev hev
        simp only [List.cons_append, List.nil_append, List.mem_cons] at hev
        rcases hev with rfl | rfl | hev
        · exact Or.inl rfl
        · exact Or.inr rfl
        · exact ht ev hev
    · rw [h1] at r1
      have r2 := r1.log ("Repository " ++ r.name ++ " cloned successfully to "
          ++ clonePathOf destinationPath r)
      obtain ⟨l, ⟨ha, ht⟩, hr⟩ := ih (consoleLog ("Repository " ++ r.name
        ++ " cloned successfully to " ++ clonePathOf destinationPath r) s1)
      rw [r2.2.1] at hr ha
      refine ⟨_, ⟨?_, ?_⟩, r2.trans hr⟩
      · simp [actions, Event.action?] at ha ⊢
        exact ha
      · intro ev hev
        simp only [List.cons_append, List.nil_append, List.mem_cons] at hev
        rcases hev with rfl | rfl | hev
        · exact Or.inl rfl
        · exact Or.inr rfl
        · exact ht ev hev

theorem deleteAllRepositories_run (env : Env) (username accessToken : JsVal) (s : State) :
    ∃ l, DeleteRun username accessToken l (deleteAllRepositories env username accessToken s).1
      ∧ Reaches s l s.cwd (deleteAllRepositories env username accessToken s).2 := by
  unfold deleteAllRepositories
  have r0 : Reaches s [.log "\nDelete All Repositories"] s.cwd
    (consoleLog "\nDelete All Repositories" s) := Reaches.emit s _
  simp only [confirmAction, promptConfirm]
  cases env.promptConfirm (consoleLog "\nDelete All Repositories" s) deleteConfirmMessage with
  | error e => exact ⟨_, .promptRejects e, r0.trans (Reaches.emit _ _)⟩
  | ok b =>
    have r1 := r0.trans (Reaches.emit (consoleLog "\nDelete All Repositories" s)
      (.promptConfirm deleteConfirmMessage (.ok b)))
    simp only [List.singleton_append, r0.2.1] at r1
    cases b with
    | false => exact ⟨_, .declined, r1.log _⟩
    | true =>
      simp only [Bool.not_true, Bool.false_eq_true, if_false, axiosGet]
      cases env.httpGet ((consoleLog "\nDelete All Repositories" s).emit
        (.promptConfirm deleteConfirmMessage (.ok true))) userReposUrl (bearer accessToken) with
      | error e =>
        have r2 := (r1.trans (Reaches.emit _ (.httpGet userReposUrl (bearer accessToken)
          (.error e)))).error ("Error fetching repositories: " ++ e)
        simp only [r1.2.1] at r2
        exact ⟨_, .listFails e, r2⟩
      | ok repos =>
        have r2 := r1.trans (Reaches.emit _ (.httpGet userReposUrl (bearer accessToken)
          (.ok repos)))
        simp only [r1.2.1] at r2
        obtain ⟨l, hl, hr⟩ := deleteLoop_run env username (bearer accessToken) repos
          (((consoleLog "\nDelete All Repositories" s).emit
            (.promptConfirm deleteConfirmMessage (.ok true))).emit
              (.httpGet userReposUrl (bearer accessToken) (.ok repos)))
        rw [r2.2.1] at hr
        exact ⟨_, .listed repos l hl, r2.trans hr⟩

theorem cloneAllRepositories_run (env : Env) (username accessToken : JsVal) (s : State) :
    ∃ l, CloneRun accessToken s.cwd l (cloneAllRepositories env username accessToken s).1
      ∧ Reaches s l s.cwd (cloneAllRepositories env username accessToken s).2 := by
  unfold cloneAllRepositories
  have r0 : Reaches s [.log "\nClone All Repositories"] s.cwd
    (consoleLog "\nClone All Repositories" s) := Reaches.emit s _
  simp only [promptInput]
  cases env.promptInput (consoleLog "\nClone All Repositories" s) cloneDestinationMessage with
  | error e => exact ⟨_, .promptRejects e, r0.trans (Reaches.emit _ _)⟩
  | ok dest =>
    have r1 := r0.trans (Reaches.emit (consoleLog "\nClone All Repositories" s)
      (.promptInput cloneDestinationMessage (.ok dest)))
    simp only [List.singleton_append, r0.2.1] at r1
    simp only [axiosGet]
    cases env.httpGet ((consoleLog "\nClone All Repositories" s).emit
      (.promptInput cloneDestinationMessage (.ok dest))) userReposUrl (bearer accessToken) with
    | error e =>
      have r2 := (r1.trans (Reaches.emit _ (.httpGet userReposUrl (bearer accessToken)
        (.error e)))).error ("Error fetching repositories: " ++ e)
      simp only [r1.2.1] at r2
      exact ⟨_, .listFails dest e, r2⟩
    | ok repos =>
      have r2 := r1.trans (Reaches.emit _ (.httpGet userReposUrl (bearer accessToken)
        (.ok repos)))
      simp only [r1.2.1] at r2
      obtain ⟨l, hl, hr⟩ := cloneLoop_run env dest repos
        (((consoleLog "\nClone All Repositories" s).emit
          (.promptInput cloneDestinationMessage (.ok dest))).emit
            (.httpGet userReposUrl (bearer accessToken) (.ok repos)))
      rw [r2.2.1] at hr hl
      exact ⟨_, .listed dest repos l hl, r2.trans hr⟩

/-! ## Path resolution -/

theorem splitSlash_of_not_mem (cs : List Char) (h : '/' ∉ cs) : splitSlash cs = [cs] := by
  induction cs with
  | nil => rfl
  | cons c cs ih =>
    simp only [List.mem_cons, not_or] at h
    have hc : c ≠ '/' := fun hc => h.1 hc.symm
    simp [splitSlash, hc, ih h.2]

theorem resolve_component (cwd : Path) (p : String)
    (h1 : p ≠ "") (h2 : p ≠ ".") (h3 : p ≠ "..") (h4 : '/' ∉ p.data) :
    resolve cwd p = cwd ++ [p] := by
  have hh : p.data.head? ≠ some '/' := by
    intro hh
    exact h4 (List.mem_of_mem_head? hh)
  simp [resolve, splitSlash_of_not_mem _ h4, hh, resolveStep, h1, h2, h3]

theorem resolve_single (cwd : Path) (n : String) (h : SingleComponent n) :
    resolve cwd n = cwd ++ [n] :=
  resolve_component cwd n h.1 h.2.1 h.2.2.1 h.2.2.2

theorem resolve_git (cwd : Path) (n : String) (h : SingleComponent n) :
    resolve cwd (n ++ ".git") = cwd ++ [n ++ ".git"] := by
  have hlen : (n ++ ".git").length = n.length + 4 := by
    rw [String.length_append]; rfl
  apply resolve_component
  · intro h0
    rw [h0] at hlen
    have h1 : "".length = 0 := rfl
    omega
  · intro h0
    rw [h0] at hlen
    have h1 : ".".length = 1 := rfl
    omega
  · intro h0
    rw [h0] at hlen
    have h1 : "..".length = 2 := rfl
    omega
  · rw [String.data_append]
    simp only [List.mem_append, not_or]
    exact ⟨h.2.2.2, by decide⟩

theorem resolve_parent (cwd : Path) (x : String) : resolve (cwd ++ [x]) ".." = cwd := by
  have h : splitSlash "..".data = ["..".data] := by decide
  have h1 : ¬ (".." = "" ∨ ".." = ".") := by decide
  simp [resolve, h, resolveStep, h1]

/-! ## The main loop -/

theorem callArgs_append (l1 l2 : List Event) :
    callArgs (l1 ++ l2) = callArgs l1 ++ callArgs l2 := by
  simp [callArgs, List.filterMap_append]

theorem callArgs_of_no_call (l : List Event) (h : ∀ e ∈ l, e.tag ≠ .call) :
    callArgs l = [] := by
  rw [callArgs, List.filterMap_eq_nil_iff]
  intro e he
  have ht := h e he
  cases e <;> first | rfl | exact absurd rfl ht

theorem isString_of_truthy (v : JsVal) (h : v.truthy = true) : v.isString = true := by
  cases v <;> simp_all [JsVal.truthy, JsVal.isString]

theorem deleteRun_no_call {username accessToken : JsVal} {l : List Event}
    {r : Except String Unit} (h : DeleteRun username accessToken l r) :
    ∀ e ∈ l, e.tag ≠ .call := by
  cases h with
  | listed repos l2 h2 =>
    intro e he
    simp only [List.cons_append, List.nil_append, List.mem_cons] at he
    rcases he with rfl | rfl | rfl | he
    · simp [Event.tag]
    · simp [Event.tag]
    · simp [Event.tag]
    · rcases h2.2 e he with h3 | h3 <;> simp [h3]
  | _ => simp [Event.tag]

theorem cloneRun_no_call {accessToken : JsVal} {cwd : Path} {l : List Event}
    {r : Except String Unit} (h : CloneRun accessToken cwd l r) :
    ∀ e ∈ l, e.tag ≠ .call := by
  cases h with
  | listed d repos l2 h2 =>
    intro e he
    simp only [List.cons_append, List.nil_append, List.mem_cons] at he
    rcases he with rfl | rfl | rfl | he
    · simp [Event.tag]
    · simp [Event.tag]
    · simp [Event.tag]
    · rcases h2.2 e he with h3 | h3 <;> simp [h3]
  | _ => simp [Event.tag]

theorem migrateRun_no_call {accessToken : JsVal} {cwd c : Path} {l : List Event}
    {r : Except String Unit} (h : MigrateRun accessToken cwd l r c) :
    ∀ e ∈ l, e.tag ≠ .call := by
  rcases h with _ | _ | _ | _ | ⟨_, _, _, _, _, _, (_ | _ | _ | _ | ⟨_, _, _, _, _,
    (_ | _ | _ | ⟨_, _, _, _, (_ | _ | _)⟩)⟩)⟩
  all_goals
    simp only [List.cons_append, List.nil_append, List.forall_mem_cons, Event.tag, ne_eq,
      reduceCtorEq, not_false_eq_true, true_and, List.not_mem_nil, false_implies,
      implies_true]

/-- What one call of `dispatch` does: the session variables stay as they are, and the
only operation it starts is started with the current variables and directory. -/
theorem dispatch_spec (env : Env) (f : Feature) (s : State) :
    ∃ l, (dispatch env f s).2.trace = s.trace ++ l
      ∧ (dispatch env f s).2.accessToken = s.accessToken
      ∧ (dispatch env f s).2.username = s.username
      ∧ ∀ a ∈ callArgs l, a = (s.username, s.accessToken, s.cwd) := by
  cases f with
  | exit => exact ⟨[], by simp [dispatch], rfl, rfl, by simp [callArgs]⟩
  | clone =>
    obtain ⟨l, hrun, hr⟩ := cloneAllRepositories_run env s.username s.accessToken
      (s.emit (.call .clone s.username s.accessToken s.cwd))
    refine ⟨.call .clone s.username s.accessToken s.cwd :: l, ?_, ?_, ?_, ?_⟩
    · simpa [dispatch] using hr.1
    · simpa [dispatch] using hr.2.2.1
    · simpa [dispatch] using hr.2.2.2
    · have := callArgs_of_no_call l (cloneRun_no_call hrun)
      rw [← List.singleton_append, callArgs_append, this]
      simp [callArgs]
  | delete =>
    obtain ⟨l, hrun, hr⟩ := deleteAllRepositories_run env s.username s.accessToken
      (s.emit (.call .delete s.username s.accessToken s.cwd))
    refine ⟨.call .delete s.username s.accessToken s.cwd :: l, ?_, ?_, ?_, ?_⟩
    · simpa [dispatch] using hr.1
    · simpa [dispatch] using hr.2.2.1
    · simpa [dispatch] using hr.2.2.2
    · have := callArgs_of_no_call l (deleteRun_no_call hrun)
      rw [← List.singleton_append, callArgs_append, this]
      simp [callArgs]
  | migrate =>
    obtain ⟨l, c, hrun, hr⟩ := migrateRepository_run env s.username s.accessToken
      (s.emit (.call .migrate s.username s.accessToken s.cwd))
    refine ⟨.call .migrate s.username s.accessToken s.cwd :: l, ?_, ?_, ?_, ?_⟩
    · simpa [dispatch] using hr.1
    · simpa [dispatch] using hr.2.2.1
    · simpa [dispatch] using hr.2.2.2
    · have := callArgs_of_no_call l (migrateRun_no_call hrun)
      rw [← List.singleton_append, callArgs_append, this]
      simp [callArgs]

theorem console_step {s t : State} {e : Event}
    (h : ∃ l, Reaches s l s.cwd t ∧ ∀ x ∈ l, x.tag = .console) (he : e.tag = .console) :
    ∃ l, Reaches s l s.cwd (t.emit e) ∧ ∀ x ∈ l, x.tag = .console := by
  obtain ⟨l, hr, ht⟩ := h
  refine ⟨l ++ [e], ?_, ?_⟩
  · have := hr.trans (Reaches.emit t e)
    rwa [hr.2.1] at this
  · intro x hx
    rcases List.mem_append.1 hx with h1 | h1
    · exact ht x h1
    · rw [List.mem_singleton.1 h1]
      exact he

theorem homeScreenText_reaches (s : State) :
    ∃ l, Reaches s l s.cwd (homeScreenText s) ∧ ∀ e ∈ l, e.tag = .console := by
  have h0 : ∃ l, Reaches s l s.cwd s ∧ ∀ x ∈ l, x.tag = .console :=
    ⟨[], ⟨by simp, rfl, rfl, rfl⟩, by simp⟩
  unfold homeScreenText consoleLog
  exact console_step (console_step (console_step (console_step (console_step (console_step
    (console_step (console_step (console_step h0 rfl) rfl) rfl) rfl) rfl) rfl) rfl) rfl) rfl

/-- What `captureAccessToken` does to the state. -/
theorem captureAccessToken_spec (env : Env) (s : State) :
    ∃ l, (captureAccessToken env s).2.trace = s.trace ++ l
      ∧ (captureAccessToken env s).2.cwd = s.cwd
      ∧ (captureAccessToken env s).2.username = s.username
      ∧ (∀ e ∈ l, ∃ r, e = .promptInput "Enter your GitHub access token:" r)
      ∧ ((captureAccessToken env s).1 = .ok ()
          → (captureAccessToken env s).2.accessToken.isString = true)
      ∧ (s.accessToken.truthy = true
          → (captureAccessToken env s).2.accessToken = s.accessToken ∧ l = []) := by
  simp only [captureAccessToken, getGitHubAccessToken, promptInput]
  cases ht : s.accessToken.truthy with
  | true =>
    exact ⟨[], by simp, rfl, rfl, by simp, fun _ => isString_of_truthy _ ht, fun _ => ⟨rfl, rfl⟩⟩
  | false =>
    simp only [Bool.not_false, if_true]
    cases env.promptInput s "Enter your GitHub access token:" with
    | error e => exact ⟨_, rfl, rfl, rfl, by simp, by simp, by simp⟩
    | ok a => exact ⟨_, rfl, rfl, rfl, by simp, by simp [JsVal.isString], by simp⟩

/-- What `captureUsername` does to the state. -/
theorem captureUsername_spec (env : Env) (s : State) :
    ∃ l, (captureUsername env s).2.trace = s.trace ++ l
      ∧ (captureUsername env s).2.cwd = s.cwd
      ∧ (captureUsername env s).2.accessToken = s.accessToken
      ∧ (∀ e ∈ l, ∃ r, e = .promptInput "Enter your GitHub username:" r)
      ∧ ((captureUsername env s).1 = .ok ()
          → (captureUsername env s).2.username.isString = true)
      ∧ (s.username.truthy = true
          → (captureUsername env s).2.username = s.username ∧ l = []) := by
  simp only [captureUsername, getUsername, promptInput]
  cases ht : s.username.truthy with
  | true =>
    exact ⟨[], by simp, rfl, rfl, by simp, fun _ => isString_of_truthy _ ht, fun _ => ⟨rfl, rfl⟩⟩
  | false =>
    simp only [Bool.not_false, if_true]
    cases env.promptInput s "Enter your GitHub username:" with
    | error e => exact ⟨_, rfl, rfl, rfl, by simp, by simp, by simp⟩
    | ok a => exact ⟨_, rfl, rfl, rfl, by simp, by simp [JsVal.isString], by simp⟩

/-- What `showHomeScreen` does to the state. -/
theorem showHomeScreen_spec (env : Env) (s : State) :
    ∃ l, (showHomeScreen env s).2.trace = s.trace ++ l
      ∧ (showHomeScreen env s).2.cwd = s.cwd
      ∧ (∀ e ∈ l, e.tag ≠ .call)
      ∧ ((showHomeScreen env s).1 = .ok ()
          → (showHomeScreen env s).2.accessToken.isString = true
            ∧ (showHomeScreen env s).2.username.isString = true)
      ∧ (s.accessToken.truthy = true
          → (showHomeScreen env s).2.accessToken = s.accessToken
            ∧ ∀ r, Event.promptInput "Enter your GitHub access token:" r ∉ l)
      ∧ (s.username.truthy = true
          → (showHomeScreen env s).2.username = s.username
            ∧ ∀ r, Event.promptInput "Enter your GitHub username:" r ∉ l) := by
  obtain ⟨l0, h0, t0⟩ := homeScreenText_reaches s
  obtain ⟨l1, a1, a2, a3, a4, a5, a6⟩ := captureAccessToken_spec env (homeScreenText s)
  unfold showHomeScreen
  rcases hc : captureAccessToken env (homeScreenText s) with ⟨e | u, s1⟩
  · rw [hc] at a1 a2 a3 a5 a6
    simp only [] at a1 a2 a3 a6 ⊢
    refine ⟨l0 ++ l1, by rw [a1, h0.1, List.append_assoc], by rw [a2, h0.2.1], ?_, by simp,
      ?_, ?_⟩
    · intro ev hev
      rcases List.mem_append.1 hev with h | h
      · simp [t0 ev h]
      · obtain ⟨r, rfl⟩ := a4 ev h
        simp [Event.tag]
    · intro ht
      rw [← h0.2.2.1] at ht
      obtain ⟨h1, h2⟩ := a6 ht
      subst h2
      refine ⟨by rw [h1, h0.2.2.1], ?_⟩
      intro r hr
      rw [List.append_nil] at hr
      have := t0 _ hr
      simp [Event.tag] at this
    · intro ht
      refine ⟨by rw [a3, h0.2.2.2], ?_⟩
      intro r hr
      rcases List.mem_append.1 hr with h | h
      · have := t0 _ h
        simp [Event.tag] at this
      · obtain ⟨r2, h2⟩ := a4 _ h
        simp at h2
  · rw [hc] at a1 a2 a3 a5 a6
    simp only [] at a1 a2 a3 a5 a6 ⊢
    obtain ⟨l2, b1, b2, b3, b4, b5, b6⟩ := captureUsername_spec env s1
    refine ⟨l0 ++ l1 ++ l2, by simp only [b1, a1, h0.1, List.append_assoc],
      by rw [b2, a2, h0.2.1], ?_, ?_, ?_, ?_⟩
    · intro ev hev
      rcases List.mem_append.1 hev with h | h
      · rcases List.mem_append.1 h with h | h
        · simp [t0 ev h]
        · obtain ⟨r, rfl⟩ := a4 ev h
          simp [Event.tag]
      · obtain ⟨r, rfl⟩ := b4 ev h
        simp [Event.tag]
    · intro hok
      exact ⟨by rw [b3]; exact a5 trivial, b5 hok⟩
    · intro ht
      rw [← h0.2.2.1] at ht
      obtain ⟨h1, h2⟩ := a6 ht
      subst h2
      refine ⟨by rw [b3, h1, h0.2.2.1], ?_⟩
      intro r hr
      rw [List.append_nil] at hr
      rcases List.mem_append.1 hr with h | h
      · have := t0 _ h
        simp [Event.tag] at this
      · obtain ⟨r2, h2⟩ := b4 _ h
        simp only [Event.promptInput.injEq] at h2
        exact absurd h2.1 (by decide)
    · intro ht
      rw [← h0.2.2.2, ← a3] at ht
      obtain ⟨h1, h2⟩ := b6 ht
      subst h2
      refine ⟨by rw [h1, a3, h0.2.2.2], ?_⟩
      intro r hr
      rw [List.append_nil] at hr
      rcases List.mem_append.1 hr with h | h
      · have := t0 _ h
        simp [Event.tag] at this
      · obtain ⟨r2, h2⟩ := a4 _ h
        simp only [Event.promptInput.injEq] at h2
        exact absurd h2.1 (by decide)

theorem callArgs_snoc (l : List Event) (e : Event) (h : e.tag ≠ .call) :
    callArgs (l ++ [e]) = callArgs l := by
  rw [callArgs_append, callArgs_of_no_call [e] (by simpa using h), List.append_nil]

/-- What one pass through the `try` block of `main` does: every operation it
dispatches gets two strings and starts in the directory the pass began in, and a
session variable that is truthy at the start is the same at the end. -/
theorem mainBody_spec (env : Env) (s : State) :
    ∃ l, (mainBody env s).2.trace = s.trace ++ l
      ∧ (∀ a ∈ callArgs l, a.1.isString = true ∧ a.2.1.isString = true ∧ a.2.2 = s.cwd)
      ∧ (s.accessToken.truthy = true → (mainBody env s).2.accessToken = s.accessToken)
      ∧ (s.username.truthy = true → (mainBody env s).2.username = s.username) := by
  obtain ⟨l0, a1, a2, a3, a4, a5, a6⟩ := showHomeScreen_spec env s
  have c0 : callArgs l0 = [] := callArgs_of_no_call l0 a3
  unfold mainBody
  rcases hs : showHomeScreen env s with ⟨e | u, s1⟩
  · rw [hs] at a1 a5 a6
    exact ⟨l0, a1, by simp [c0], fun h => (a5 h).1, fun h => (a6 h).1⟩
  · rw [hs] at a1 a2 a4 a5 a6
    simp only [] at a1 a2 a4 a5 a6 ⊢
    simp only [promptFeature, consoleLog]
    cases env.promptFeature (s1.emit (.log "\n")) with
    | error e =>
      refine ⟨l0 ++ [.log "\n"] ++ [.promptFeature (.error e)], ?_, ?_,
        fun h => (a5 h).1, fun h => (a6 h).1⟩
      · simp [a1]
      · rw [callArgs_snoc _ _ (by simp [Event.tag]), callArgs_snoc _ _ (by simp [Event.tag]), c0]
        simp
    | ok f =>
      simp only []
      by_cases hf : f = .exit
      · simp only [hf, if_true]
        refine ⟨l0 ++ [.log "\n"] ++ [.promptFeature (.ok .exit)]
          ++ [.log "Exiting GitCommander. Goodbye!"], ?_, ?_,
          fun h => (a5 h).1, fun h => (a6 h).1⟩
        · simp [a1]
        · rw [callArgs_snoc _ _ (by simp [Event.tag]), callArgs_snoc _ _ (by simp [Event.tag]),
            callArgs_snoc _ _ (by simp [Event.tag]), c0]
          simp
      · simp only [hf, if_false]
        obtain ⟨ld, d1, d2, d3, d4⟩ := dispatch_spec env f
          ((((s1.emit (.log "\n")).emit (.promptFeature (.ok f))).emit .consoleClear).emit
            (.banner "GitCommander") |>.emit (.log ("Selected Feature: " ++ f.text)))
        have hpre : callArgs (l0 ++ [.log "\n"] ++ [.promptFeature (.ok f)] ++ [.consoleClear]
            ++ [.banner "GitCommander"] ++ [.log ("Selected Feature: " ++ f.text)]) = [] := by
          rw [callArgs_snoc _ _ (by simp [Event.tag]), callArgs_snoc _ _ (by simp [Event.tag]),
            callArgs_snoc _ _ (by simp [Event.tag]), callArgs_snoc _ _ (by simp [Event.tag]),
            callArgs_snoc _ _ (by simp [Event.tag]), c0]
        have hargs : ∀ a ∈ callArgs ld,
            a.1.isString = true ∧ a.2.1.isString = true ∧ a.2.2 = s.cwd := by
          intro a ha
          rw [d4 a ha]
          exact ⟨(a4 trivial).2, (a4 trivial).1, a2⟩
        rcases hd : dispatch env f
          ((((s1.emit (.log "\n")).emit (.promptFeature (.ok f))).emit .consoleClear).emit
            (.banner "GitCommander") |>.emit (.log ("Selected Feature: " ++ f.text)))
          with ⟨e | u, s2⟩
        · rw [hd] at d1 d2 d3
          simp only [emit_trace, emit_accessToken, emit_username] at d1 d2 d3
          refine ⟨(l0 ++ [.log "\n"] ++ [.promptFeature (.ok f)] ++ [.consoleClear]
            ++ [.banner "GitCommander"] ++ [.log ("Selected Feature: " ++ f.text)]) ++ ld,
            ?_, ?_, ?_, ?_⟩
          · simp [d1, a1]
          · rw [callArgs_append, hpre, List.nil_append]
            exact hargs
          · intro h
            simp only [d2]
            exact (a5 h).1
          · intro h
            simp only [d3]
            exact (a6 h).1
        · rw [hd] at d1 d2 d3
          simp only [emit_trace, emit_accessToken, emit_username] at d1 d2 d3
          simp only [promptConfirm]
          have key : ∀ r : Except String Bool, ∃ l,
              (s2.emit (.promptConfirm backToHomeMessage r)).trace = s.trace ++ l
              ∧ (∀ a ∈ callArgs l,
                  a.1.isString = true ∧ a.2.1.isString = true ∧ a.2.2 = s.cwd) := by
            intro r
            refine ⟨(l0 ++ [.log "\n"] ++ [.promptFeature (.ok f)] ++ [.consoleClear]
              ++ [.banner "GitCommander"] ++ [.log ("Selected Feature: " ++ f.text)]) ++ ld
              ++ [.promptConfirm backToHomeMessage r], ?_, ?_⟩
            · simp [d1, a1]
            · rw [callArgs_snoc _ _ (by simp [Event.tag]), callArgs_append, hpre,
                List.nil_append]
              exact hargs
          cases hr : env.promptConfirm s2 backToHomeMessage with
          | error e =>
            obtain ⟨l, k1, k2⟩ := key (.error e)
            exact ⟨l, k1, k2, fun h => by simp only [emit_accessToken, d2]; exact (a5 h).1,
              fun h => by simp only [emit_username, d3]; exact (a6 h).1⟩
          | ok b =>
            obtain ⟨l, k1, k2⟩ := key (.ok b)
            exact ⟨l, k1, k2, fun h => by simp only [emit_accessToken, d2]; exact (a5 h).1,
              fun h => by simp only [emit_username, d3]; exact (a6 h).1⟩

/-- What one turn of the loop of `main` does. -/
theorem mainIteration_spec (env : Env) (s : State) :
    ∃ l, (mainIteration env s).2.trace = s.trace ++ l
      ∧ (∀ a ∈ callArgs l, a.1.isString = true ∧ a.2.1.isString = true ∧ a.2.2 = s.cwd)
      ∧ (s.accessToken.truthy = true → (mainIteration env s).2.accessToken = s.accessToken)
      ∧ (s.username.truthy = true → (mainIteration env s).2.username = s.username) := by
  obtain ⟨l, h1, h2, h3, h4⟩ := mainBody_spec env s
  unfold mainIteration
  rcases hb : mainBody env s with ⟨e | b, s1⟩
  · rw [hb] at h1 h3 h4
    refine ⟨l ++ [.errorWith "\nAn error occurred:" e], ?_, ?_, h3, h4⟩
    · simp only [emit_trace]
      rw [h1, List.append_assoc]
    · rw [callArgs_snoc _ _ (by simp [Event.tag])]
      exact h2
  · rw [hb] at h1 h3 h4
    exact ⟨l, h1, h2, h3, h4⟩

/-- Every operation dispatched during the loop of `main` gets two strings. -/
theorem mainLoop_spec (env : Env) (fuel : Nat) :
    ∀ s : State, ∃ l, (mainLoop env fuel s).trace = s.trace ++ l
      ∧ ∀ a ∈ callArgs l, a.1.isString = true ∧ a.2.1.isString = true := by
  induction fuel with
  | zero => intro s; exact ⟨[], by simp [mainLoop], by simp [callArgs]⟩
  | succ n ih =>
    intro s
    obtain ⟨l, h1, h2, -, -⟩ := mainIteration_spec env s
    unfold mainLoop
    rcases hi : mainIteration env s with ⟨b, s1⟩
    rw [hi] at h1
    cases b with
    | false => exact ⟨l, h1, fun a ha => ⟨(h2 a ha).1, (h2 a ha).2.1⟩⟩
    | true =>
      obtain ⟨l2, g1, g2⟩ := ih s1
      refine ⟨l ++ l2, ?_, ?_⟩
      · simp only []
        rw [g1, h1, List.append_assoc]
      · intro a ha
        rw [callArgs_append] at ha
        rcases List.mem_append.1 ha with h | h
        · exact ⟨(h2 a h).1, (h2 a h).2.1⟩
        · exact g2 a h

theorem mem_actions_of_exec {l : List Event} {c : Path} {cmd : String}
    {r : Except String Unit} (h : Event.exec c cmd r ∈ l) : Action.exec c cmd ∈ actions l := by
  rw [actions, List.mem_filterMap]
  exact ⟨_, h, rfl⟩

theorem cleanup_not_before_last (accessToken : JsVal) (cwd : Path) (req : MigrationRequest)
    (url : JsVal) (dirs : List Path) (c : Path) (n : Nat) (hn : n ≤ 6) :
    Action.exec c ("rm -rf " ++ (req.newRepoName ++ ".git"))
      ∉ (migrationActions accessToken cwd req url dirs).take n := by
  intro h
  have h6 : Action.exec c ("rm -rf " ++ (req.newRepoName ++ ".git"))
      ∈ (migrationActions accessToken cwd req url dirs).take 6 := by
    have hsub := List.take_sublist n ((migrationActions accessToken cwd req url dirs).take 6)
    rw [List.take_take, Nat.min_eq_left hn] at hsub
    exact hsub.subset h
  simp only [migrationActions, List.take_succ_cons, List.take_zero, List.mem_cons,
    List.not_mem_nil, or_false, Action.exec.injEq, reduceCtorEq, false_or] at h6
  rcases h6 with h1 | h1 | h1 | h1 | h1
  · have h2 : some 'r' = some 'g' := congrArg (fun x : String => x.data.head?) h1.2
    exact absurd h2 (by decide)
  · have h2 : some 'r' = some (Char.ofNat 10) := congrArg (fun x : String => x.data.head?) h1.2
    exact absurd h2 (by decide)
  · have h2 : some 'r' = some 'g' := congrArg (fun x : String => x.data.head?) h1.2
    exact absurd h2 (by decide)
  · have h2 : some 'r' = some 'g' := congrArg (fun x : String => x.data.head?) h1.2
    exact absurd h2 (by decide)
  · have h2 : some 'r' = some 'g' := congrArg (fun x : String => x.data.head?) h1.2
    exact absurd h2 (by decide)

/-! ## The session and the working directory along the main loop -/

theorem answers_append (m : String) (l1 l2 : List Event) :
    answers m (l1 ++ l2) = answers m l1 ++ answers m l2 := by
  simp [answers, List.filterMap_append]

theorem latestAnswer_append (m : String) (l1 l2 : List Event) (h : answers m l2 = []) :
    latestAnswer m (l1 ++ l2) = latestAnswer m l1 := by
  simp [latestAnswer, answers_append, h]

theorem latestAnswer_answered (m : String) (l : List Event) (a : String) :
    latestAnswer m (l ++ [.promptInput m (.ok a)]) = .str a := by
  simp [latestAnswer, answers_append, answers]

theorem callsFollow_append (l1 l2 : List Event) :
    ∀ pre : List Event, CallsFollowAnswers pre (l1 ++ l2)
      ↔ CallsFollowAnswers pre l1 ∧ CallsFollowAnswers (pre ++ l1) l2 := by
  induction l1 with
  | nil => intro pre; simp [CallsFollowAnswers]
  | cons e l ih =>
    intro pre
    rw [List.cons_append]
    simp only [CallsFollowAnswers]
    rw [ih (pre ++ [e])]
    simp only [List.append_assoc, List.singleton_append, and_assoc]

theorem callsFollow_of_no_call (l : List Event) (h : ∀ e ∈ l, e.tag ≠ .call) :
    ∀ pre : List Event, CallsFollowAnswers pre l := by
  induction l with
  | nil => intro pre; trivial
  | cons e l ih =>
    intro pre
    refine ⟨?_, ih (fun x hx => h x (List.mem_cons_of_mem _ hx)) _⟩
    have he := h e (List.mem_cons_self _ _)
    cases e <;> trivial

theorem answers_of_no_prompt (m : String) (l : List Event) (h : ∀ e ∈ l, e.tag ≠ .prompt) :
    answers m l = [] := by
  rw [answers, List.filterMap_eq_nil_iff]
  intro e he
  have ht := h e he
  cases e <;> first | rfl | exact absurd rfl ht

theorem cwdAfter_append (c : Path) (l1 l2 : List Event) :
    cwdAfter c (l1 ++ l2) = cwdAfter (cwdAfter c l1) l2 := by
  simp [cwdAfter, List.foldl_append]

theorem cwdAfter_of_no_chdir (l : List Event) (h : ∀ e ∈ l, e.tag ≠ .chdir) :
    ∀ c : Path, cwdAfter c l = c := by
  induction l with
  | nil => intro c; rfl
  | cons e l ih =>
    intro c
    have he := h e (List.mem_cons_self _ _)
    have hl := ih (fun x hx => h x (List.mem_cons_of_mem _ hx))
    have h1 : cwdAfter c (e :: l) = cwdAfter (cwdAfter c [e]) l := cwdAfter_append c [e] l
    have h2 : cwdAfter c [e] = c := by
      cases e <;> first | rfl | exact absurd rfl he
    rw [h1, h2, hl]

theorem Step.refl (s : State) : Step s s :=
  ⟨⟨[], by simp, rfl⟩, id⟩

theorem Step.andThen {s t u : State} (h1 : Step s t) (h2 : Step t u) : Step s u := by
  obtain ⟨⟨l1, a1, b1⟩, g1⟩ := h1
  obtain ⟨⟨l2, a2, b2⟩, g2⟩ := h2
  refine ⟨⟨l1 ++ l2, by rw [a2, a1, List.append_assoc], ?_⟩, fun h => g2 (g1 h)⟩
  rw [cwdAfter_append, ← b1, b2]

/-- Events that neither dispatch nor answer a session prompt keep the session
tracking the answers. -/
theorem tracks_extend {s t : State} {l : List Event} (ht : t.trace = s.trace ++ l)
    (ha : t.accessToken = s.accessToken) (hu : t.username = s.username)
    (hc : ∀ e ∈ l, e.tag ≠ .call)
    (h1 : answers "Enter your GitHub access token:" l = [])
    (h2 : answers "Enter your GitHub username:" l = [])
    (h : SessionTracksAnswers s) : SessionTracksAnswers t := by
  obtain ⟨g1, g2, g3⟩ := h
  refine ⟨?_, ?_, ?_⟩
  · rw [ha, ht, latestAnswer_append _ _ _ h1]
    exact g1
  · rw [hu, ht, latestAnswer_append _ _ _ h2]
    exact g2
  · rw [ht, callsFollow_append]
    exact ⟨g3, callsFollow_of_no_call l hc _⟩

theorem step_emit (s : State) (e : Event) (h : e.quiet = true) : Step s (s.emit e) := by
  have hc : ∀ x ∈ [e], x.tag ≠ .call := by
    intro x hx
    rw [List.mem_singleton.1 hx]
    cases e <;> simp_all [Event.quiet, Event.tag]
  have hd : ∀ x ∈ [e], x.tag ≠ .chdir := by
    intro x hx
    rw [List.mem_singleton.1 hx]
    cases e <;> simp_all [Event.quiet, Event.tag]
  have ha : ∀ m, answers m [e] = [] := by
    intro m
    cases e <;> simp_all [Event.quiet, answers]
  exact ⟨⟨[e], rfl, (cwdAfter_of_no_chdir [e] hd s.cwd).symm⟩,
    tracks_extend rfl rfl rfl hc (ha _) (ha _)⟩

/-- An operation that leaves the session alone, dispatches nothing, answers no session
prompt and moves the directory as its directory changes say, is a step. -/
theorem step_of_reaches {s t : State} {l : List Event} {c : Path} (h : Reaches s l c t)
    (hc : ∀ e ∈ l, e.tag ≠ .call)
    (h1 : answers "Enter your GitHub access token:" l = [])
    (h2 : answers "Enter your GitHub username:" l = [])
    (hd : c = cwdAfter s.cwd l) : Step s t :=
  ⟨⟨l, h.1, by rw [h.2.1, hd]⟩, tracks_extend h.1 h.2.2.1 h.2.2.2 hc h1 h2⟩

theorem deleteRun_answers {username accessToken : JsVal} {l : List Event}
    {r : Except String Unit} (h : DeleteRun username accessToken l r) (m : String) :
    answers m l = [] ∧ ∀ e ∈ l, e.tag ≠ .chdir := by
  cases h with
  | listed repos l2 h2 =>
    refine ⟨?_, ?_⟩
    · rw [answers_append, answers_of_no_prompt m l2
        (fun e he => by rcases h2.2 e he with h3 | h3 <;> simp [h3])]
      simp [answers]
    · intro e he
      simp only [List.cons_append, List.nil_append, List.mem_cons] at he
      rcases he with rfl | rfl | rfl | he
      · simp [Event.tag]
      · simp [Event.tag]
      · simp [Event.tag]
      · rcases h2.2 e he with h3 | h3 <;> simp [h3]
  | _ => simp [answers, Event.tag]

theorem cloneRun_answers {accessToken : JsVal} {cwd : Path} {l : List Event}
    {r : Except String Unit} (h : CloneRun accessToken cwd l r) (m : String)
    (hm : m ≠ cloneDestinationMessage) :
    answers m l = [] ∧ ∀ e ∈ l, e.tag ≠ .chdir := by
  have hm2 : ¬ cloneDestinationMessage = m := fun h => hm h.symm
  cases h with
  | listed d repos l2 h2 =>
    refine ⟨?_, ?_⟩
    · rw [answers_append, answers_of_no_prompt m l2
        (fun e he => by rcases h2.2 e he with h3 | h3 <;> simp [h3])]
      simp [answers, hm2]
    · intro e he
      simp only [List.cons_append, List.nil_append, List.mem_cons] at he
      rcases he with rfl | rfl | rfl | he
      · simp [Event.tag]
      · simp [Event.tag]
      · simp [Event.tag]
      · rcases h2.2 e he with h3 | h3 <;> simp [h3]
  | _ => simp [answers, Event.tag, hm2]

theorem migrateRun_answers {accessToken : JsVal} {cwd c : Path} {l : List Event}
    {r : Except String Unit} (h : MigrateRun accessToken cwd l r c) (m : String) :
    answers m l = [] ∧ c = cwdAfter cwd l := by
  rcases h with _ | _ | _ | _ | ⟨_, _, _, _, _, _, (_ | _ | _ | _ | ⟨_, _, _, _, _,
    (_ | _ | _ | ⟨_, _, _, _, (_ | _ | _)⟩)⟩)⟩
  all_goals
    simp [answers, cwdAfter]

theorem homeScreenText_step (s : State) : Step s (homeScreenText s) := by
  obtain ⟨l, hr, ht⟩ := homeScreenText_reaches s
  have hc : ∀ e ∈ l, e.tag ≠ .call := fun e he => by simp [ht e he]
  have hp : ∀ e ∈ l, e.tag ≠ .prompt := fun e he => by simp [ht e he]
  have hd : ∀ e ∈ l, e.tag ≠ .chdir := fun e he => by simp [ht e he]
  exact step_of_reaches hr hc (answers_of_no_prompt _ l hp) (answers_of_no_prompt _ l hp)
    (cwdAfter_of_no_chdir l hd s.cwd).symm

theorem captureAccessToken_step (env : Env) (s : State) :
    Step s (captureAccessToken env s).2 := by
  simp only [captureAccessToken, getGitHubAccessToken, promptInput]
  cases ht : s.accessToken.truthy with
  | true => exact Step.refl s
  | false =>
    simp only [Bool.not_false, if_true]
    cases env.promptInput s "Enter your GitHub access token:" with
    | error e =>
      refine ⟨⟨[_], rfl, rfl⟩, tracks_extend rfl rfl rfl ?_ ?_ ?_⟩
      · simp [Event.tag]
      · simp [answers]
      · simp [answers]
    | ok a =>
      refine ⟨⟨[.promptInput "Enter your GitHub access token:" (.ok a)], rfl, rfl⟩, ?_⟩
      rintro ⟨g1, g2, g3⟩
      refine ⟨?_, ?_, ?_⟩
      · exact (latestAnswer_answered _ _ _).symm
      · show s.username = latestAnswer "Enter your GitHub username:"
          (s.trace ++ [.promptInput "Enter your GitHub access token:" (.ok a)])
        rw [latestAnswer_append _ _ _ (by simp [answers])]
        exact g2
      · show CallsFollowAnswers []
          (s.trace ++ [.promptInput "Enter your GitHub access token:" (.ok a)])
        rw [callsFollow_append]
        exact ⟨g3, callsFollow_of_no_call _ (by simp [Event.tag]) _⟩

theorem captureUsername_step (env : Env) (s : State) :
    Step s (captureUsername env s).2 := by
  simp only [captureUsername, getUsername, promptInput]
  cases ht : s.username.truthy with
  | true => exact Step.refl s
  | false =>
    simp only [Bool.not_false, if_true]
    cases env.promptInput s "Enter your GitHub username:" with
    | error e =>
      refine ⟨⟨[_], rfl, rfl⟩, tracks_extend rfl rfl rfl ?_ ?_ ?_⟩
      · simp [Event.tag]
      · simp [answers]
      · simp [answers]
    | ok a =>
      refine ⟨⟨[.promptInput "Enter your GitHub username:" (.ok a)], rfl, rfl⟩, ?_⟩
      rintro ⟨g1, g2, g3⟩
      refine ⟨?_, ?_, ?_⟩
      · show s.accessToken = latestAnswer "Enter your GitHub access token:"
          (s.trace ++ [.promptInput "Enter your GitHub username:" (.ok a)])
        rw [latestAnswer_append _ _ _ (by simp [answers])]
        exact g1
      · exact (latestAnswer_answered _ _ _).symm
      · show CallsFollowAnswers []
          (s.trace ++ [.promptInput "Enter your GitHub username:" (.ok a)])
        rw [callsFollow_append]
        exact ⟨g3, callsFollow_of_no_call _ (by simp [Event.tag]) _⟩

theorem showHomeScreen_step (env : Env) (s : State) : Step s (showHomeScreen env s).2 := by
  have h0 := homeScreenText_step s
  have h1 := captureAccessToken_step env (homeScreenText s)
  unfold showHomeScreen
  rcases hc : captureAccessToken env (homeScreenText s) with ⟨e | u, s1⟩
  · rw [hc] at h1
    exact h0.andThen h1
  · rw [hc] at h1
    exact (h0.andThen h1).andThen (captureUsername_step env s1)

theorem step_call (s : State) (f : Feature) :
    Step s (s.emit (.call f s.username s.accessToken s.cwd)) := by
  refine ⟨⟨[_], rfl, rfl⟩, ?_⟩
  rintro ⟨g1, g2, g3⟩
  refine ⟨?_, ?_, ?_⟩
  · show s.accessToken = latestAnswer _ (s.trace ++ [.call f s.username s.accessToken s.cwd])
    rw [latestAnswer_append _ _ _ (by simp [answers])]
    exact g1
  · show s.username = latestAnswer _ (s.trace ++ [.call f s.username s.accessToken s.cwd])
    rw [latestAnswer_append _ _ _ (by simp [answers])]
    exact g2
  · show CallsFollowAnswers [] (s.trace ++ [.call f s.username s.accessToken s.cwd])
    rw [callsFollow_append]
    exact ⟨g3, ⟨g1, g2⟩, trivial⟩

theorem dispatch_step (env : Env) (f : Feature) (s : State) : Step s (dispatch env f s).2 := by
  cases f with
  | exit => exact Step.refl s
  | clone =>
    obtain ⟨l, hrun, hr⟩ := cloneAllRepositories_run env s.username s.accessToken
      (s.emit (.call .clone s.username s.accessToken s.cwd))
    have h1 := cloneRun_answers hrun "Enter your GitHub access token:" (by decide)
    have h2 := cloneRun_answers hrun "Enter your GitHub username:" (by decide)
    exact (step_call s .clone).andThen (step_of_reaches hr (cloneRun_no_call hrun) h1.1 h2.1
      (cwdAfter_of_no_chdir l h1.2 _).symm)
  | delete =>
    obtain ⟨l, hrun, hr⟩ := deleteAllRepositories_run env s.username s.accessToken
      (s.emit (.call .delete s.username s.accessToken s.cwd))
    have h1 := deleteRun_answers hrun "Enter your GitHub access token:"
    have h2 := deleteRun_answers hrun "Enter your GitHub username:"
    exact (step_call s .delete).andThen (step_of_reaches hr (deleteRun_no_call hrun) h1.1 h2.1
      (cwdAfter_of_no_chdir l h1.2 _).symm)
  | migrate =>
    obtain ⟨l, c, hrun, hr⟩ := migrateRepository_run env s.username s.accessToken
      (s.emit (.call .migrate s.username s.accessToken s.cwd))
    have h1 := migrateRun_answers hrun "Enter your GitHub access token:"
    have h2 := migrateRun_answers hrun "Enter your GitHub username:"
    exact (step_call s .migrate).andThen (step_of_reaches hr (migrateRun_no_call hrun) h1.1 h2.1
      h1.2)

theorem mainBody_step (env : Env) (s : State) : Step s (mainBody env s).2 := by
  have h0 := showHomeScreen_step env s
  unfold mainBody
  rcases hs : showHomeScreen env s with ⟨e | u, s1⟩
  · rw [hs] at h0
    exact h0
  · rw [hs] at h0
    simp only [promptFeature, consoleLog]
    have h1 := h0.andThen (step_emit s1 (.log "\n") rfl)
    cases hf : env.promptFeature (s1.emit (.log "\n")) with
    | error e => exact h1.andThen (step_emit _ _ rfl)
    | ok f =>
      have h2 := h1.andThen (step_emit (s1.emit (.log "\n")) (.promptFeature (.ok f)) rfl)
      simp only []
      by_cases hx : f = .exit
      · simp only [hx, if_true]
        rw [hx] at h2
        exact h2.andThen (step_emit _ _ rfl)
      · simp only [hx, if_false]
        have h3 := ((h2.andThen (step_emit _ .consoleClear rfl)).andThen
          (step_emit _ (.banner "GitCommander") rfl)).andThen
          (step_emit _ (.log ("Selected Feature: " ++ f.text)) rfl)
        have h4 := h3.andThen (dispatch_step env f _)
        rcases hd : dispatch env f
          ((((s1.emit (.log "\n")).emit (.promptFeature (.ok f))).emit .consoleClear).emit
            (.banner "GitCommander") |>.emit (.log ("Selected Feature: " ++ f.text)))
          with ⟨e | u, s2⟩
        · rw [hd] at h4
          exact h4
        · rw [hd] at h4
          simp only [promptConfirm]
          cases env.promptConfirm s2 backToHomeMessage with
          | error e => exact h4.andThen (step_emit _ _ rfl)
          | ok b => exact h4.andThen (step_emit _ _ rfl)

theorem mainIteration_step (env : Env) (s : State) : Step s (mainIteration env s).2 := by
  have h0 := mainBody_step env s
  unfold mainIteration
  rcases hb : mainBody env s with ⟨e | b, s1⟩
  · rw [hb] at h0
    exact h0.andThen (step_emit _ _ rfl)
  · rw [hb] at h0
    exact h0

theorem mainLoop_step (env : Env) (fuel : Nat) : ∀ s : State, Step s (mainLoop env fuel s) := by
  induction fuel with
  | zero => intro s; exact Step.refl s
  | succ n ih =>
    intro s
    have h0 := mainIteration_step env s
    unfold mainLoop
    rcases hi : mainIteration env s with ⟨b, s1⟩
    rw [hi] at h0
    cases b with
    | false => exact h0
    | true => exact h0.andThen (ih s1)

/-! ## The claims -/

/-- C8: `createNewRepository` issues exactly one POST to
https://api.github.com/user/repos with body name = repositoryName, private = false and
a bearer-token authorization header; when the request succeeds it returns the
`html_url` of the response and prints nothing, when the request fails it prints the
error with `console.error` and returns null; it never throws. -/
theorem createNewRepository_one_post_never_raises (env : Env) (accessToken : JsVal)
    (repositoryName : String) (s : State) :
    eventsSince s (createNewRepository env accessToken repositoryName s).2
        = Event.httpPost "https://api.github.com/user/repos" repositoryName false
            ("Bearer " ++ accessToken.interp)
            (env.httpPost s "https://api.github.com/user/repos" repositoryName false
              ("Bearer " ++ accessToken.interp))
          :: (match env.httpPost s "https://api.github.com/user/repos" repositoryName false
                ("Bearer " ++ accessToken.interp) with
              | .ok _ => []
              | .error e =>
                [Event.error ("Error creating repository " ++ repositoryName ++ ": " ++ e)])
      ∧ (createNewRepository env accessToken repositoryName s).1
        = .ok (match env.httpPost s "https://api.github.com/user/repos" repositoryName false
                ("Bearer " ++ accessToken.interp) with
            | .ok html_url => html_url
            | .error _ => JsVal.null) := by
  simp only [createNewRepository, axiosPost, userReposUrl, bearer]
  cases env.httpPost s "https://api.github.com/user/repos" repositoryName false
      ("Bearer " ++ accessToken.interp) <;>
    simp [eventsSince, consoleError]

/-- C2: when the confirmation prompt of `deleteAllRepositories` is declined, the
function adds exactly three events to the trace (its heading, the declined prompt and
the message "Action aborted."), so it issues no HTTP call and runs no command, and it
returns normally. -/
theorem deleteAll_declined_issues_nothing (env : Env) (username accessToken : JsVal)
    (s : State)
    (hdecline : Event.promptConfirm deleteConfirmMessage (.ok false)
      ∈ eventsSince s (deleteAllRepositories env username accessToken s).2) :
    (deleteAllRepositories env username accessToken s).1 = .ok ()
      ∧ eventsSince s (deleteAllRepositories env username accessToken s).2
        = [.log "\nDelete All Repositories",
            .promptConfirm deleteConfirmMessage (.ok false),
            .log "Action aborted."]
      ∧ actions (eventsSince s (deleteAllRepositories env username accessToken s).2) = [] := by
  obtain ⟨l, hrun, hr⟩ := deleteAllRepositories_run env username accessToken s
  rw [eventsSince_of_append hr.1] at hdecline ⊢
  generalize (deleteAllRepositories env username accessToken s).1 = res at hrun ⊢
  cases hrun with
  | promptRejects e => simp at hdecline
  | declined => exact ⟨rfl, rfl, rfl⟩
  | listFails e => simp at hdecline
  | listed repos l2 h =>
    simp only [List.cons_append, List.nil_append, List.mem_cons, Event.promptConfirm.injEq,
      reduceCtorEq, false_or] at hdecline
    simp at hdecline
    have := h.2 _ hdecline
    simp [Event.tag] at this

/-- C1: when the confirmation is accepted and the listing call returns `repos`,
`deleteAllRepositories` returns normally and its external actions are exactly the
listing GET followed by one DELETE per repository, in list order, each addressed to
https://api.github.com/repos/(username)/(name of the repository), whatever the
individual DELETE calls answer. -/
theorem deleteAll_one_delete_per_repository (env : Env) (username accessToken : JsVal)
    (s : State) (repos : List Repo)
    (hconfirm : Event.promptConfirm deleteConfirmMessage (.ok true)
      ∈ eventsSince s (deleteAllRepositories env username accessToken s).2)
    (hlist : Event.httpGet userReposUrl (bearer accessToken) (.ok repos)
      ∈ eventsSince s (deleteAllRepositories env username accessToken s).2) :
    (deleteAllRepositories env username accessToken s).1 = .ok ()
      ∧ actions (eventsSince s (deleteAllRepositories env username accessToken s).2)
        = Action.get "https://api.github.com/user/repos" ("Bearer " ++ accessToken.interp)
          :: repos.map (fun r => Action.delete
              ("https://api.github.com/repos/" ++ username.interp ++ "/" ++ r.name)
              ("Bearer " ++ accessToken.interp)) := by
  obtain ⟨l, hrun, hr⟩ := deleteAllRepositories_run env username accessToken s
  rw [eventsSince_of_append hr.1] at hconfirm hlist ⊢
  generalize (deleteAllRepositories env username accessToken s).1 = res at hrun ⊢
  cases hrun with
  | promptRejects e => simp at hlist
  | declined => simp at hlist
  | listFails e => simp at hlist
  | listed rs l2 h =>
    have hrs : repos = rs := by
      simp only [List.cons_append, List.nil_append, List.mem_cons, reduceCtorEq, false_or,
        Event.httpGet.injEq, Except.ok.injEq, true_and] at hlist
      rcases hlist with h1 | h1
      · exact h1
      · have := h.2 _ h1
        simp [Event.tag] at this
    subst hrs
    refine ⟨rfl, ?_⟩
    have ha := h.1
    simp only [actions] at ha
    simp [actions, Event.action?, ha, userReposUrl, bearer, deleteUrl]

/-- C3: when the operator answers `destinationPath` and the listing call returns
`repos`, `cloneAllRepositories` returns normally and its external actions are exactly
the listing GET followed by one command `git clone (clone_url) (destinationPath)/(name)`
per repository, in list order, all run in the directory the function was called in,
whatever the individual clone commands answer. -/
theorem cloneAll_one_clone_per_repository (env : Env) (username accessToken : JsVal)
    (s : State) (destinationPath : String) (repos : List Repo)
    (hdest : Event.promptInput cloneDestinationMessage (.ok destinationPath)
      ∈ eventsSince s (cloneAllRepositories env username accessToken s).2)
    (hlist : Event.httpGet userReposUrl (bearer accessToken) (.ok repos)
      ∈ eventsSince s (cloneAllRepositories env username accessToken s).2) :
    (cloneAllRepositories env username accessToken s).1 = .ok ()
      ∧ actions (eventsSince s (cloneAllRepositories env username accessToken s).2)
        = Action.get "https://api.github.com/user/repos" ("Bearer " ++ accessToken.interp)
          :: repos.map (fun r => Action.exec s.cwd
              ("git clone " ++ r.clone_url ++ " " ++ (destinationPath ++ "/" ++ r.name))) := by
  obtain ⟨l, hrun, hr⟩ := cloneAllRepositories_run env username accessToken s
  rw [eventsSince_of_append hr.1] at hdest hlist ⊢
  generalize (cloneAllRepositories env username accessToken s).1 = res at hrun ⊢
  cases hrun with
  | promptRejects e => simp at hlist
  | listFails d e => simp at hlist
  | listed d rs l2 h =>
    have hrs : repos = rs := by
      simp only [List.cons_append, List.nil_append, List.mem_cons, reduceCtorEq, false_or,
        Event.httpGet.injEq, Except.ok.injEq, true_and] at hlist
      rcases hlist with h1 | h1
      · exact h1
      · have := h.2 _ h1
        simp [Event.tag] at this
    have hd : destinationPath = d := by
      simp only [List.cons_append, List.nil_append, List.mem_cons, reduceCtorEq, false_or,
        Event.promptInput.injEq, Except.ok.injEq, true_and] at hdest
      rcases hdest with h1 | h1
      · exact h1
      · have := h.2 _ h1
        simp [Event.tag] at this
    subst hrs hd
    have ha := h.1
    refine ⟨rfl, ?_⟩
    simp only [actions] at ha
    simp [actions, Event.action?, ha, userReposUrl, bearer, cloneCommand, clonePathOf]

/-- C4: when no external call of a `migrateRepository` run fails (the operator
answers `req`, the create call returns the truthy URL `url`, and every command and
directory change succeeds), the function returns normally; it changes directory four
times, into (newRepoName).git, back with `..`, into (newRepoName) and back with `..`;
its external actions are exactly, in this order: create the remote repository,
bare-clone the source into (newRepoName).git, run `git filter-branch` with an
environment filter that sets author and committer name and email to the supplied
values over `--branches --tags` in the directory entered first, clone the bare clone
into (newRepoName) in the directory entered second, set the origin to `url` and
push with `--mirror` in the directory entered third, remove (newRepoName).git in the
directory entered last; and the last thing it does is print the success message. -/
theorem migrate_success_actions_in_order (env : Env) (username accessToken : JsVal)
    (s : State) (req : MigrationRequest) (url : JsVal)
    (hreq : Event.promptMigration (.ok req)
      ∈ eventsSince s (migrateRepository env username accessToken s).2)
    (hurl : Event.httpPost userReposUrl req.newRepoName false (bearer accessToken) (.ok url)
      ∈ eventsSince s (migrateRepository env username accessToken s).2)
    (hall : ∀ ev ∈ eventsSince s (migrateRepository env username accessToken s).2,
      ev.succeeded = true) :
    (migrateRepository env username accessToken s).1 = .ok ()
      ∧ (∃ d1 d2 d3 d4,
          enteredDirs (eventsSince s (migrateRepository env username accessToken s).2)
            = [d1, d2, d3, d4]
          ∧ dirChanges (eventsSince s (migrateRepository env username accessToken s).2)
            = [(s.cwd, req.newRepoName ++ ".git"), (d1, ".."), (d2, req.newRepoName),
                (d3, "..")]
          ∧ actions (eventsSince s (migrateRepository env username accessToken s).2)
            = [.post "https://api.github.com/user/repos" req.newRepoName false
                  ("Bearer " ++ accessToken.interp),
                .exec s.cwd ("git clone --bare " ++ req.sourceRepoUrl ++ " "
                  ++ (req.newRepoName ++ ".git")),
                .exec d1
                  ("\n      git filter-branch --env-filter \x27\n"
                    ++ "        export GIT_AUTHOR_NAME=\"" ++ req.newAuthorName ++ "\"\n"
                    ++ "        export GIT_AUTHOR_EMAIL=\"" ++ req.newAuthorEmail ++ "\"\n"
                    ++ "        export GIT_COMMITTER_NAME=\"" ++ req.newAuthorName ++ "\"\n"
                    ++ "        export GIT_COMMITTER_EMAIL=\"" ++ req.newAuthorEmail ++ "\"\n"
                    ++ "      \x27 --tag-name-filter cat -- --branches --tags\n    "),
                .exec d2 ("git clone " ++ (req.newRepoName ++ ".git") ++ " "
                  ++ req.newRepoName),
                .exec d3 ("git remote set-url origin " ++ url.interp),
                .exec d3 "git push --mirror origin",
                .exec d4 ("rm -rf " ++ (req.newRepoName ++ ".git"))])
      ∧ actions (eventsSince s (migrateRepository env username accessToken s).2)
        = migrationActions accessToken s.cwd req url
            (enteredDirs (eventsSince s (migrateRepository env username accessToken s).2))
      ∧ (eventsSince s (migrateRepository env username accessToken s).2).getLast?
        = some (.log "\nRepository migration completed successfully.") := by
  obtain ⟨l, c, hrun, hr⟩ := migrateRepository_run env username accessToken s
  rw [eventsSince_of_append hr.1] at hreq hurl hall ⊢
  generalize (migrateRepository env username accessToken s).1 = res at hrun ⊢
  clear hr
  rcases hrun with _ | _ | ⟨_, _, hempty⟩ | _ | ⟨_, _, _, _, _, _, (_ | _ | _ | _ |
    ⟨_, _, _, _, _, (_ | _ | _ | ⟨_, _, _, _, (_ | _ | ⟨d4⟩)⟩)⟩)⟩
  · simp at hreq
  · simp [Event.succeeded, createResult, JsVal.truthy] at hall
  · simp [Event.succeeded, createResult, hempty] at hall
  · simp [Event.succeeded, createResult, Except.toBool] at hall
  · simp [Event.succeeded, createResult, Except.toBool] at hall
  · simp [Event.succeeded, createResult, Except.toBool] at hall
  · simp [Event.succeeded, createResult, Except.toBool] at hall
  · simp [Event.succeeded, createResult, Except.toBool] at hall
  · simp [Event.succeeded, createResult, Except.toBool] at hall
  · simp [Event.succeeded, createResult, Except.toBool] at hall
  · simp [Event.succeeded, createResult, Except.toBool] at hall
  · simp [Event.succeeded, createResult, Except.toBool] at hall
  · simp [Event.succeeded, createResult, Except.toBool] at hall
  · simp only [List.cons_append, List.nil_append, List.mem_cons, reduceCtorEq, false_or,
      Event.promptMigration.injEq, Except.ok.injEq, Event.httpPost.injEq, true_and,
      List.mem_singleton, or_false, List.not_mem_nil] at hreq hurl
    obtain ⟨-, rfl⟩ := hurl
    subst hreq
    refine ⟨rfl, ⟨_, _, _, _, rfl, rfl, ?_⟩, ?_, ?_⟩
    · simp [actions, Event.action?, userReposUrl, bearer, bareCloneCmd,
        clonePath, workingCloneCmd, setUrlCmd, pushCmd, cleanupCmd, rewriteCmd]
    · simp [actions, Event.action?, migrationActions, enteredDirs, userReposUrl, bearer,
        bareCloneCmd, clonePath, workingCloneCmd, setUrlCmd, pushCmd, cleanupCmd, rewriteCmd]
    · simp [successMessage]

/-- C5: when the create call of a `migrateRepository` run fails, that is, when
`createNewRepository` hands back null or an empty value, no command is run and no
directory change is attempted, the only external action is the POST itself, the
working directory is unchanged, the last message is "Repository creation failed.",
and the function returns normally. -/
theorem migrate_create_failure_stops (env : Env) (username accessToken : JsVal)
    (s : State) (newRepoName : String) (r : Except String JsVal)
    (hpost : Event.httpPost userReposUrl newRepoName false (bearer accessToken) r
      ∈ eventsSince s (migrateRepository env username accessToken s).2)
    (hfail : (createResult r).truthy = false) :
    (migrateRepository env username accessToken s).1 = .ok ()
      ∧ actions (eventsSince s (migrateRepository env username accessToken s).2)
        = [Action.post "https://api.github.com/user/repos" newRepoName false
            ("Bearer " ++ accessToken.interp)]
      ∧ commands (eventsSince s (migrateRepository env username accessToken s).2) = []
      ∧ (∀ ev ∈ eventsSince s (migrateRepository env username accessToken s).2,
          ev.tag ≠ .exec ∧ ev.tag ≠ .chdir)
      ∧ (migrateRepository env username accessToken s).2.cwd = s.cwd
      ∧ (eventsSince s (migrateRepository env username accessToken s).2).getLast?
        = some (.error "Repository creation failed.") := by
  obtain ⟨l, c, hrun, hr⟩ := migrateRepository_run env username accessToken s
  rw [eventsSince_of_append hr.1] at hpost ⊢
  rw [hr.2.1]
  generalize (migrateRepository env username accessToken s).1 = res at hrun ⊢
  clear hr
  rcases hrun with _ | _ | _ | _ | ⟨_, _, _, _, _, _, (_ | _ | _ | _ | ⟨_, _, _, _, _,
    (_ | _ | _ | ⟨_, _, _, _, (_ | _ | _)⟩)⟩)⟩
  all_goals
    simp only [List.cons_append, List.nil_append, List.mem_cons, reduceCtorEq, false_or,
      Event.httpPost.injEq, true_and, List.mem_singleton, or_false, List.not_mem_nil] at hpost
  · obtain ⟨rfl, rfl⟩ := hpost
    simp [actions, Event.action?, commands, Event.tag, userReposUrl, bearer]
  · obtain ⟨rfl, rfl⟩ := hpost
    simp [actions, Event.action?, commands, Event.tag, userReposUrl, bearer]
  all_goals
    obtain ⟨-, rfl⟩ := hpost
    simp_all [createResult]

/-- C6: in a `migrateRepository` run for the request `req` whose create call returned
`url`, if the commands before step `k` succeed and the command of step `k` fails
(`k` ranging over CloneSourceBare, RewriteHistory, CloneBareToWorkingCopy,
SetRemoteOrigin and MirrorPush), then the function returns normally, its external
actions are exactly the actions of a successful migration up to and including step
`k`, no command is run after the failing one, the success message is not printed, no
DELETE call is issued and the command that removes the bare clone is not run. -/
theorem migrate_step_failure_is_terminal (env : Env) (username accessToken : JsVal)
    (s : State) (req : MigrationRequest) (url : JsVal) (k : MigrationStep) (e : String)
    (hreq : Event.promptMigration (.ok req)
      ∈ eventsSince s (migrateRepository env username accessToken s).2)
    (hurl : Event.httpPost userReposUrl req.newRepoName false (bearer accessToken) (.ok url)
      ∈ eventsSince s (migrateRepository env username accessToken s).2)
    (hbefore : ∀ i < k.index,
      (execResults (eventsSince s (migrateRepository env username accessToken s).2))[i]?
        = some (.ok ()))
    (hfail :
      (execResults (eventsSince s (migrateRepository env username accessToken s).2))[k.index]?
        = some (.error e)) :
    (migrateRepository env username accessToken s).1 = .ok ()
      ∧ actions (eventsSince s (migrateRepository env username accessToken s).2)
        = (migrationActions accessToken s.cwd req url
            (enteredDirs (eventsSince s (migrateRepository env username accessToken s).2))).take
              (k.index + 2)
      ∧ execResults (eventsSince s (migrateRepository env username accessToken s).2)
        = List.replicate k.index (.ok ()) ++ [.error e]
      ∧ Event.log "\nRepository migration completed successfully."
        ∉ eventsSince s (migrateRepository env username accessToken s).2
      ∧ (∀ ev ∈ eventsSince s (migrateRepository env username accessToken s).2,
          ev.tag ≠ .delete)
      ∧ (∀ c r, Event.exec c ("rm -rf " ++ (req.newRepoName ++ ".git")) r
          ∉ eventsSince s (migrateRepository env username accessToken s).2) := by
  suffices hmain : (migrateRepository env username accessToken s).1 = .ok ()
      ∧ actions (eventsSince s (migrateRepository env username accessToken s).2)
        = (migrationActions accessToken s.cwd req url
            (enteredDirs (eventsSince s (migrateRepository env username accessToken s).2))).take
              (k.index + 2)
      ∧ execResults (eventsSince s (migrateRepository env username accessToken s).2)
        = List.replicate k.index (.ok ()) ++ [.error e]
      ∧ Event.log "\nRepository migration completed successfully."
        ∉ eventsSince s (migrateRepository env username accessToken s).2
      ∧ (∀ ev ∈ eventsSince s (migrateRepository env username accessToken s).2,
          ev.tag ≠ .delete) by
    refine ⟨hmain.1, hmain.2.1, hmain.2.2.1, hmain.2.2.2.1, hmain.2.2.2.2, ?_⟩
    intro c r hmem
    have h1 := mem_actions_of_exec hmem
    rw [hmain.2.1] at h1
    exact cleanup_not_before_last accessToken s.cwd req url _ c (k.index + 2)
      (by cases k <;> simp [MigrationStep.index]) h1
  obtain ⟨l, c, hrun, hr⟩ := migrateRepository_run env username accessToken s
  rw [eventsSince_of_append hr.1] at hreq hurl hbefore hfail ⊢
  generalize (migrateRepository env username accessToken s).1 = res at hrun ⊢
  clear hr
  rcases hrun with _ | _ | _ | _ | ⟨_, _, _, _, _, _, (_ | _ | _ | _ | ⟨_, _, _, _, _,
    (_ | _ | _ | ⟨_, _, _, _, (_ | _ | _)⟩)⟩)⟩
  all_goals
    simp only [List.cons_append, List.nil_append, List.mem_cons, reduceCtorEq, false_or,
      Event.promptMigration.injEq, Except.ok.injEq, Event.httpPost.injEq, true_and,
      List.mem_singleton, or_false, List.not_mem_nil] at hreq hurl
  all_goals
    clear hbefore
    cases k <;>
      simp_all [execResults, MigrationStep.index, actions, Event.action?, migrationActions,
        enteredDirs, rewriteCmd,
        userReposUrl, bearer, bareCloneCmd, clonePath, workingCloneCmd, setUrlCmd, pushCmd,
        cleanupCmd, Event.tag, successMessage]

/-- C7, as the code has it: in a `migrateRepository` run for the request `req` whose
create call returned `url`, if the five commands through the push succeed and the
cleanup command fails, then the function returns normally, every action of a
successful migration has been issued and nothing more, the last output is the
message "Error cleaning up: " followed by the error, and the success message is not
printed. -/
theorem migrate_cleanup_failure_not_reported_as_success (env : Env)
    (username accessToken : JsVal) (s : State) (req : MigrationRequest) (url : JsVal)
    (e : String)
    (hreq : Event.promptMigration (.ok req)
      ∈ eventsSince s (migrateRepository env username accessToken s).2)
    (hurl : Event.httpPost userReposUrl req.newRepoName false (bearer accessToken) (.ok url)
      ∈ eventsSince s (migrateRepository env username accessToken s).2)
    (hpushed : ∀ i < 5,
      (execResults (eventsSince s (migrateRepository env username accessToken s).2))[i]?
        = some (.ok ()))
    (hfail :
      (execResults (eventsSince s (migrateRepository env username accessToken s).2))[5]?
        = some (.error e)) :
    (migrateRepository env username accessToken s).1 = .ok ()
      ∧ actions (eventsSince s (migrateRepository env username accessToken s).2)
        = migrationActions accessToken s.cwd req url
            (enteredDirs (eventsSince s (migrateRepository env username accessToken s).2))
      ∧ (eventsSince s (migrateRepository env username accessToken s).2).getLast?
        = some (.error ("Error cleaning up: " ++ e))
      ∧ Event.log "\nRepository migration completed successfully."
        ∉ eventsSince s (migrateRepository env username accessToken s).2 := by
  obtain ⟨l, c, hrun, hr⟩ := migrateRepository_run env username accessToken s
  rw [eventsSince_of_append hr.1] at hreq hurl hpushed hfail ⊢
  generalize (migrateRepository env username accessToken s).1 = res at hrun ⊢
  clear hr
  rcases hrun with _ | _ | _ | _ | ⟨_, _, _, _, _, _, (_ | _ | _ | _ | ⟨_, _, _, _, _,
    (_ | _ | _ | ⟨_, _, _, _, (_ | _ | _)⟩)⟩)⟩
  all_goals
    simp only [List.cons_append, List.nil_append, List.mem_cons, reduceCtorEq, false_or,
      Event.promptMigration.injEq, Except.ok.injEq, Event.httpPost.injEq, true_and,
      List.mem_singleton, or_false, List.not_mem_nil] at hreq hurl
  all_goals
    clear hpushed
    simp_all [execResults, actions, Event.action?, migrationActions, enteredDirs, rewriteCmd,
      userReposUrl, bearer, bareCloneCmd, clonePath, workingCloneCmd, setUrlCmd, pushCmd,
      cleanupCmd, successMessage]

/-- C10, as the code has it: in a `migrateRepository` run whose request names the new
repository by a single path component and in which no directory change follows a
symbolic link: if the cleanup command is reached, or the create call fails, or the
bare clone fails, the working directory after the call is the one before it; if the
history rewrite fails the call returns inside (newRepoName).git; if setting the
origin or pushing fails the call returns inside (newRepoName).  With or without
symbolic links the call ends in the directory its last successful directory change
entered.  And `main` never restores the directory: whatever it dispatches in a turn
of its loop starts in the directory in which that turn began, and the turn ends in
the directory its last successful directory change entered. -/
theorem migrate_working_directory (env : Env) (username accessToken : JsVal)
    (s : State) (req : MigrationRequest)
    (hreq : Event.promptMigration (.ok req)
      ∈ eventsSince s (migrateRepository env username accessToken s).2)
    (hname : SingleComponent req.newRepoName)
    (hlex : ∀ ev ∈ eventsSince s (migrateRepository env username accessToken s).2,
      ev.lexical = true) :
    ((execResults (eventsSince s (migrateRepository env username accessToken s).2)).length = 6
        → (migrateRepository env username accessToken s).2.cwd = s.cwd)
      ∧ (execResults (eventsSince s (migrateRepository env username accessToken s).2) = []
        → (migrateRepository env username accessToken s).2.cwd = s.cwd)
      ∧ (∀ e, (execResults (eventsSince s (migrateRepository env username accessToken s).2))[
            MigrationStep.cloneSourceBare.index]? = some (.error e)
        → (migrateRepository env username accessToken s).2.cwd = s.cwd)
      ∧ (∀ e, (execResults (eventsSince s (migrateRepository env username accessToken s).2))[
            MigrationStep.rewriteHistory.index]? = some (.error e)
        → (migrateRepository env username accessToken s).2.cwd
            = s.cwd ++ [req.newRepoName ++ ".git"])
      ∧ (∀ e, (execResults (eventsSince s (migrateRepository env username accessToken s).2))[
            MigrationStep.setRemoteOrigin.index]? = some (.error e)
          ∨ (execResults (eventsSince s (migrateRepository env username accessToken s).2))[
            MigrationStep.mirrorPush.index]? = some (.error e)
        → (migrateRepository env username accessToken s).2.cwd
            = s.cwd ++ [req.newRepoName])
      ∧ (migrateRepository env username accessToken s).2.cwd
          = cwdAfter s.cwd (eventsSince s (migrateRepository env username accessToken s).2)
      ∧ (∀ t : State, ∀ a ∈ callArgs (eventsSince t (mainIteration env t).2),
          a.2.2 = t.cwd)
      ∧ (∀ t : State, (mainIteration env t).2.cwd
          = cwdAfter t.cwd (eventsSince t (mainIteration env t).2)) := by
  have hcalls : ∀ t : State, ∀ a ∈ callArgs (eventsSince t (mainIteration env t).2),
      a.2.2 = t.cwd := by
    intro t a ha
    obtain ⟨l, h1, h2, -, -⟩ := mainIteration_spec env t
    rw [eventsSince_of_append h1] at ha
    exact (h2 a ha).2.2
  have hturn : ∀ t : State, (mainIteration env t).2.cwd
      = cwdAfter t.cwd (eventsSince t (mainIteration env t).2) := by
    intro t
    obtain ⟨⟨l, h1, h2⟩, -⟩ := mainIteration_step env t
    rw [eventsSince_of_append h1]
    exact h2
  have hlast : (migrateRepository env username accessToken s).2.cwd
      = cwdAfter s.cwd (eventsSince s (migrateRepository env username accessToken s).2) := by
    obtain ⟨l, c, hrun, hr⟩ := migrateRepository_run env username accessToken s
    rw [eventsSince_of_append hr.1, hr.2.1]
    exact (migrateRun_answers hrun "").2
  refine ⟨?_, ?_, ?_, ?_, ?_, hlast, hcalls, hturn⟩
  all_goals
    clear hcalls hturn hlast
    obtain ⟨l, c, hrun, hr⟩ := migrateRepository_run env username accessToken s
    rw [eventsSince_of_append hr.1] at hreq hlex ⊢
    rw [hr.2.1]
    generalize (migrateRepository env username accessToken s).1 = res at hrun
    clear hr
    rcases hrun with _ | _ | _ | _ | ⟨_, _, _, _, _, _, (_ | _ | _ | _ | ⟨_, _, _, _, _,
      (_ | _ | _ | ⟨_, _, _, _, (_ | _ | _)⟩)⟩)⟩
    all_goals
      simp only [List.cons_append, List.nil_append, List.mem_cons, reduceCtorEq, false_or,
        Event.promptMigration.injEq, Except.ok.injEq, true_and,
        List.mem_singleton, or_false, List.not_mem_nil] at hreq
    all_goals
      try subst hreq
      simp only [List.cons_append, List.nil_append, List.forall_mem_cons, Event.lexical,
        decide_eq_true_eq, true_and, and_true, List.not_mem_nil, false_implies,
        implies_true] at hlex
      try casesm* _ ∧ _
      subst_vars
      simp [execResults, MigrationStep.index, clonePath, resolve_git _ _ hname,
        resolve_single _ _ hname, resolve_parent]

/-- C9, as the code has it: whenever `main` dispatches an operation, each session
variable is a string, namely the latest answer the operator gave to its prompt
(neither is null any more, either may be empty); and a variable that is truthy (a
non-empty string) is held unchanged by `showHomeScreen`, which then does not prompt
for it again, and by the whole turn of the loop. -/
theorem session_fields_are_prompt_answers_at_dispatch (env : Env) :
    (∀ fuel cwd pre post f u t c,
        (main env fuel cwd).trace = pre ++ Event.call f u t c :: post →
          (∃ a, t = .str a
              ∧ (answers "Enter your GitHub access token:" pre).getLast? = some a)
          ∧ (∃ b, u = .str b
              ∧ (answers "Enter your GitHub username:" pre).getLast? = some b))
      ∧ (∀ s : State, s.accessToken.truthy = true →
          (showHomeScreen env s).2.accessToken = s.accessToken
          ∧ (∀ r, Event.promptInput "Enter your GitHub access token:" r
              ∉ eventsSince s (showHomeScreen env s).2)
          ∧ (mainIteration env s).2.accessToken = s.accessToken)
      ∧ (∀ s : State, s.username.truthy = true →
          (showHomeScreen env s).2.username = s.username
          ∧ (∀ r, Event.promptInput "Enter your GitHub username:" r
              ∉ eventsSince s (showHomeScreen env s).2)
          ∧ (mainIteration env s).2.username = s.username) := by
  refine ⟨?_, ?_, ?_⟩
  · intro fuel cwd pre post f u t c htr
    have hinit : SessionTracksAnswers (State.init cwd) := ⟨rfl, rfl, trivial⟩
    obtain ⟨-, -, g3⟩ := (mainLoop_step env fuel (State.init cwd)).2 hinit
    obtain ⟨l, h1, h2⟩ := mainLoop_spec env fuel (State.init cwd)
    have htr2 : (mainLoop env fuel (State.init cwd)).trace = pre ++ Event.call f u t c :: post :=
      htr
    have hl : l = pre ++ Event.call f u t c :: post := by
      rw [← htr2, h1]
      rfl
    have hmem : (u, t, c) ∈ callArgs l := by
      rw [hl, callArgs_append]
      simp [callArgs]
    obtain ⟨hu, ht⟩ := h2 _ hmem
    rw [htr2, callsFollow_append] at g3
    obtain ⟨gt, gu⟩ := g3.2.1
    rw [List.nil_append] at gt gu
    simp only [latestAnswer] at gt gu
    refine ⟨?_, ?_⟩
    · cases ha : (answers "Enter your GitHub access token:" pre).getLast? with
      | none =>
        rw [ha] at gt
        rw [gt] at ht
        simp [JsVal.isString] at ht
      | some a =>
        rw [ha] at gt
        exact ⟨a, gt, rfl⟩
    · cases hb : (answers "Enter your GitHub username:" pre).getLast? with
      | none =>
        rw [hb] at gu
        rw [gu] at hu
        simp [JsVal.isString] at hu
      | some b =>
        rw [hb] at gu
        exact ⟨b, gu, rfl⟩
  · intro s hs
    obtain ⟨l, a1, -, -, -, a5, -⟩ := showHomeScreen_spec env s
    obtain ⟨l2, -, -, b3, -⟩ := mainIteration_spec env s
    rw [eventsSince_of_append a1]
    exact ⟨(a5 hs).1, (a5 hs).2, b3 hs⟩
  · intro s hs
    obtain ⟨l, a1, -, -, -, -, a6⟩ := showHomeScreen_spec env s
    obtain ⟨l2, -, -, -, b4⟩ := mainIteration_spec env s
    rw [eventsSince_of_append a1]
    exact ⟨(a6 hs).1, (a6 hs).2, b4 hs⟩

/-! ## The claims on sample runs -/

/-- C8 on a sample: a rejected create call is logged and yields null. -/
theorem createNewRepository_sample :
    eventsSince startState (createNewRepository envCreateFails (.str "tok") "new" startState).2
        = [.httpPost "https://api.github.com/user/repos" "new" false "Bearer tok"
            (.error "Unprocessable Entity"),
          .error "Error creating repository new: Unprocessable Entity"]
      ∧ (createNewRepository envCreateFails (.str "tok") "new" startState).1 = .ok .null :=
  createNewRepository_one_post_never_raises envCreateFails (.str "tok") "new" startState

/-- C1 on a sample: the DELETE of `alpha` is refused, the DELETE of `beta` is still issued. -/
theorem deleteAll_one_delete_per_repository_witness :
    Event.promptConfirm deleteConfirmMessage (.ok true)
        ∈ eventsSince startState
            (deleteAllRepositories envDeleteFails (.str "bob") (.str "tok") startState).2
      ∧ Event.httpGet userReposUrl (bearer (.str "tok")) (.ok sampleRepos)
        ∈ eventsSince startState
            (deleteAllRepositories envDeleteFails (.str "bob") (.str "tok") startState).2
      ∧ Event.httpDelete "https://api.github.com/repos/bob/alpha" "Bearer tok"
          (.error "Forbidden")
        ∈ eventsSince startState
            (deleteAllRepositories envDeleteFails (.str "bob") (.str "tok") startState).2
      ∧ (deleteAllRepositories envDeleteFails (.str "bob") (.str "tok") startState).1 = .ok ()
      ∧ actions (eventsSince startState
            (deleteAllRepositories envDeleteFails (.str "bob") (.str "tok") startState).2)
        = [.get "https://api.github.com/user/repos" "Bearer tok",
            .delete "https://api.github.com/repos/bob/alpha" "Bearer tok",
            .delete "https://api.github.com/repos/bob/beta" "Bearer tok"] :=
  ⟨by decide, by decide, by decide,
    deleteAll_one_delete_per_repository envDeleteFails (.str "bob") (.str "tok") startState
      sampleRepos (by decide) (by decide)⟩

/-- C2 on a sample: the operator declines. -/
theorem deleteAll_declined_issues_nothing_witness :
    Event.promptConfirm deleteConfirmMessage (.ok false)
        ∈ eventsSince startState
            (deleteAllRepositories envDecline (.str "bob") (.str "tok") startState).2
      ∧ (deleteAllRepositories envDecline (.str "bob") (.str "tok") startState).1 = .ok ()
      ∧ eventsSince startState
          (deleteAllRepositories envDecline (.str "bob") (.str "tok") startState).2
        = [.log "\nDelete All Repositories",
            .promptConfirm deleteConfirmMessage (.ok false),
            .log "Action aborted."]
      ∧ actions (eventsSince startState
          (deleteAllRepositories envDecline (.str "bob") (.str "tok") startState).2) = [] :=
  ⟨by decide,
    deleteAll_declined_issues_nothing envDecline (.str "bob") (.str "tok") startState
      (by decide)⟩

/-- C3 on a sample: the clone of `alpha` fails, the clone of `beta` is still run. -/
theorem cloneAll_one_clone_per_repository_witness :
    Event.promptInput cloneDestinationMessage (.ok "./repositories")
        ∈ eventsSince startState
            (cloneAllRepositories
              (envCommandFails "git clone https://github.com/bob/alpha.git ./repositories/alpha")
              (.str "bob") (.str "tok") startState).2
      ∧ Event.httpGet userReposUrl (bearer (.str "tok")) (.ok sampleRepos)
        ∈ eventsSince startState
            (cloneAllRepositories
              (envCommandFails "git clone https://github.com/bob/alpha.git ./repositories/alpha")
              (.str "bob") (.str "tok") startState).2
      ∧ execResults (eventsSince startState
            (cloneAllRepositories
              (envCommandFails "git clone https://github.com/bob/alpha.git ./repositories/alpha")
              (.str "bob") (.str "tok") startState).2)
        = [.error "exit status 1", .ok ()]
      ∧ (cloneAllRepositories
            (envCommandFails "git clone https://github.com/bob/alpha.git ./repositories/alpha")
            (.str "bob") (.str "tok") startState).1 = .ok ()
      ∧ actions (eventsSince startState
            (cloneAllRepositories
              (envCommandFails "git clone https://github.com/bob/alpha.git ./repositories/alpha")
              (.str "bob") (.str "tok") startState).2)
        = [.get "https://api.github.com/user/repos" "Bearer tok",
            .exec ["home"] "git clone https://github.com/bob/alpha.git ./repositories/alpha",
            .exec ["home"] "git clone https://github.com/bob/beta.git ./repositories/beta"] :=
  ⟨by decide, by decide, by decide,
    cloneAll_one_clone_per_repository
      (envCommandFails "git clone https://github.com/bob/alpha.git ./repositories/alpha")
      (.str "bob") (.str "tok") startState "./repositories" sampleRepos
      (by decide) (by decide)⟩

set_option maxRecDepth 100000 in
/-- C5 on a sample: the create call is rejected. -/
theorem migrate_create_failure_stops_witness :
    Event.httpPost userReposUrl "new" false (bearer (.str "tok")) (.error "Unprocessable Entity")
        ∈ eventsSince startState
            (migrateRepository envCreateFails (.str "bob") (.str "tok") startState).2
      ∧ (createResult (.error "Unprocessable Entity")).truthy = false
      ∧ (migrateRepository envCreateFails (.str "bob") (.str "tok") startState).1 = .ok ()
      ∧ actions (eventsSince startState
            (migrateRepository envCreateFails (.str "bob") (.str "tok") startState).2)
        = [.post "https://api.github.com/user/repos" "new" false "Bearer tok"]
      ∧ commands (eventsSince startState
            (migrateRepository envCreateFails (.str "bob") (.str "tok") startState).2) = []
      ∧ (∀ ev ∈ eventsSince startState
            (migrateRepository envCreateFails (.str "bob") (.str "tok") startState).2,
          ev.tag ≠ .exec ∧ ev.tag ≠ .chdir)
      ∧ (migrateRepository envCreateFails (.str "bob") (.str "tok") startState).2.cwd = ["home"]
      ∧ (eventsSince startState
            (migrateRepository envCreateFails (.str "bob") (.str "tok") startState).2).getLast?
        = some (.error "Repository creation failed.") :=
  ⟨by decide, by decide,
    migrate_create_failure_stops envCreateFails (.str "bob") (.str "tok") startState "new"
      (.error "Unprocessable Entity") (by decide) (by decide)⟩

set_option maxRecDepth 100000 in
/-- C7 fails as stated: with the same request and the same answers up to the push, the run
whose cleanup command fails prints the cleanup error and no success message, while
the run whose cleanup succeeds prints the success message. -/
theorem cleanup_failure_suppresses_success_message :
    execResults (eventsSince startState
        (migrateRepository (envCommandFails "rm -rf new.git")
          (.str "bob") (.str "tok") startState).2)
      = [.ok (), .ok (), .ok (), .ok (), .ok (), .error "exit status 1"]
    ∧ Event.error "Error cleaning up: exit status 1"
      ∈ eventsSince startState
          (migrateRepository (envCommandFails "rm -rf new.git")
            (.str "bob") (.str "tok") startState).2
    ∧ Event.log "\nRepository migration completed successfully."
      ∉ eventsSince startState
          (migrateRepository (envCommandFails "rm -rf new.git")
            (.str "bob") (.str "tok") startState).2
    ∧ Event.log "\nRepository migration completed successfully."
      ∈ eventsSince startState
          (migrateRepository baseEnv (.str "bob") (.str "tok") startState).2 := by
  decide

set_option maxRecDepth 100000 in
/-- C9 fails as stated: the operator leaves the token prompt empty and types a username;
the first operation is dispatched with an empty token and the username `bob`, one
variable unset and the other set; on the next turn `showHomeScreen` prompts for the
token again and overwrites the empty string. -/
theorem session_invariant_counterexample :
    callArgs (main envEmptyToken 2 ["home"]).trace
      = [(.str "bob", .str "", ["home"]), (.str "bob", .str "tok2", ["home"])]
    ∧ ¬ (∀ a ∈ callArgs (main envEmptyToken 2 ["home"]).trace,
          a.1.truthy = a.2.1.truthy) := by
  decide

set_option maxRecDepth 100000 in
/-- C4 on a sample: a migration in which every call succeeds. -/
theorem migrate_success_actions_in_order_witness :
    Event.promptMigration (.ok sampleRequest)
        ∈ eventsSince startState (migrateRepository baseEnv (.str "bob") (.str "tok") startState).2
      ∧ Event.httpPost userReposUrl "new" false (bearer (.str "tok"))
          (.ok (.str "https://github.com/bob/new"))
        ∈ eventsSince startState (migrateRepository baseEnv (.str "bob") (.str "tok") startState).2
      ∧ (∀ ev ∈ eventsSince startState
            (migrateRepository baseEnv (.str "bob") (.str "tok") startState).2,
          ev.succeeded = true)
      ∧ (migrateRepository baseEnv (.str "bob") (.str "tok") startState).1 = .ok ()
      ∧ dirChanges (eventsSince startState
            (migrateRepository baseEnv (.str "bob") (.str "tok") startState).2)
        = [(["home"], "new.git"), (["home", "new.git"], ".."), (["home"], "new"),
            (["home", "new"], "..")]
      ∧ actions (eventsSince startState
            (migrateRepository baseEnv (.str "bob") (.str "tok") startState).2)
        = [.post "https://api.github.com/user/repos" "new" false "Bearer tok",
            .exec ["home"] "git clone --bare https://github.com/alice/old.git new.git",
            .exec ["home", "new.git"]
              ("\n      git filter-branch --env-filter \x27\n"
                ++ "        export GIT_AUTHOR_NAME=\"Bob\"\n"
                ++ "        export GIT_AUTHOR_EMAIL=\"bob@example.com\"\n"
                ++ "        export GIT_COMMITTER_NAME=\"Bob\"\n"
                ++ "        export GIT_COMMITTER_EMAIL=\"bob@example.com\"\n"
                ++ "      \x27 --tag-name-filter cat -- --branches --tags\n    "),
            .exec ["home"] "git clone new.git new",
            .exec ["home", "new"] "git remote set-url origin https://github.com/bob/new",
            .exec ["home", "new"] "git push --mirror origin",
            .exec ["home"] "rm -rf new.git"]
      ∧ (eventsSince startState
            (migrateRepository baseEnv (.str "bob") (.str "tok") startState).2).getLast?
        = some (.log "\nRepository migration completed successfully.") :=
  ⟨by decide, by decide, by decide,
    (migrate_success_actions_in_order baseEnv (.str "bob") (.str "tok") startState
      sampleRequest (.str "https://github.com/bob/new") (by decide) (by decide) (by decide)).1,
    by decide,
    (migrate_success_actions_in_order baseEnv (.str "bob") (.str "tok") startState
      sampleRequest (.str "https://github.com/bob/new") (by decide) (by decide)
      (by decide)).2.2.1,
    (migrate_success_actions_in_order baseEnv (.str "bob") (.str "tok") startState
      sampleRequest (.str "https://github.com/bob/new") (by decide) (by decide)
      (by decide)).2.2.2⟩

set_option maxRecDepth 100000 in
/-- C6 on a sample: the history rewrite fails. -/
theorem migrate_step_failure_is_terminal_witness :
    Event.promptMigration (.ok sampleRequest)
        ∈ eventsSince startState (migrateRepository (envCommandFails (rewriteCmd sampleRequest))
            (.str "bob") (.str "tok") startState).2
      ∧ (execResults (eventsSince startState
            (migrateRepository (envCommandFails (rewriteCmd sampleRequest))
              (.str "bob") (.str "tok") startState).2))[MigrationStep.rewriteHistory.index]?
          = some (.error "exit status 1")
      ∧ (migrateRepository (envCommandFails (rewriteCmd sampleRequest))
            (.str "bob") (.str "tok") startState).1 = .ok ()
      ∧ actions (eventsSince startState
            (migrateRepository (envCommandFails (rewriteCmd sampleRequest))
              (.str "bob") (.str "tok") startState).2)
        = [.post "https://api.github.com/user/repos" "new" false "Bearer tok",
            .exec ["home"] "git clone --bare https://github.com/alice/old.git new.git",
            .exec ["home", "new.git"]
              ("\n      git filter-branch --env-filter \x27\n"
                ++ "        export GIT_AUTHOR_NAME=\"Bob\"\n"
                ++ "        export GIT_AUTHOR_EMAIL=\"bob@example.com\"\n"
                ++ "        export GIT_COMMITTER_NAME=\"Bob\"\n"
                ++ "        export GIT_COMMITTER_EMAIL=\"bob@example.com\"\n"
                ++ "      \x27 --tag-name-filter cat -- --branches --tags\n    ")]
      ∧ execResults (eventsSince startState
            (migrateRepository (envCommandFails (rewriteCmd sampleRequest))
              (.str "bob") (.str "tok") startState).2)
        = [.ok (), .error "exit status 1"]
      ∧ Event.log "\nRepository migration completed successfully."
        ∉ eventsSince startState (migrateRepository (envCommandFails (rewriteCmd sampleRequest))
            (.str "bob") (.str "tok") startState).2
      ∧ (∀ ev ∈ eventsSince startState
            (migrateRepository (envCommandFails (rewriteCmd sampleRequest))
              (.str "bob") (.str "tok") startState).2,
          ev.tag ≠ .delete)
      ∧ (∀ c r, Event.exec c ("rm -rf " ++ ("new" ++ ".git")) r
          ∉ eventsSince startState
              (migrateRepository (envCommandFails (rewriteCmd sampleRequest))
                (.str "bob") (.str "tok") startState).2) :=
  ⟨by decide, by decide,
    migrate_step_failure_is_terminal (envCommandFails (rewriteCmd sampleRequest))
      (.str "bob") (.str "tok") startState sampleRequest (.str "https://github.com/bob/new")
      .rewriteHistory "exit status 1" (by decide) (by decide) (by decide) (by decide)⟩

set_option maxRecDepth 100000 in
/-- C7, as the code has it, on a sample: the cleanup command fails. -/
theorem migrate_cleanup_failure_not_reported_as_success_witness :
    (execResults (eventsSince startState
        (migrateRepository (envCommandFails "rm -rf new.git")
          (.str "bob") (.str "tok") startState).2))[5]? = some (.error "exit status 1")
      ∧ (migrateRepository (envCommandFails "rm -rf new.git")
          (.str "bob") (.str "tok") startState).1 = .ok ()
      ∧ actions (eventsSince startState
          (migrateRepository (envCommandFails "rm -rf new.git")
            (.str "bob") (.str "tok") startState).2)
        = migrationActions (.str "tok") ["home"] sampleRequest (.str "https://github.com/bob/new")
            [["home", "new.git"], ["home"], ["home", "new"], ["home"]]
      ∧ (eventsSince startState
          (migrateRepository (envCommandFails "rm -rf new.git")
            (.str "bob") (.str "tok") startState).2).getLast?
        = some (.error "Error cleaning up: exit status 1")
      ∧ Event.log "\nRepository migration completed successfully."
        ∉ eventsSince startState
            (migrateRepository (envCommandFails "rm -rf new.git")
              (.str "bob") (.str "tok") startState).2 :=
  ⟨by decide,
    migrate_cleanup_failure_not_reported_as_success (envCommandFails "rm -rf new.git")
      (.str "bob") (.str "tok") startState sampleRequest (.str "https://github.com/bob/new")
      "exit status 1" (by decide) (by decide) (by decide) (by decide)⟩

set_option maxRecDepth 100000 in
/-- C9, as the code has it, on samples: the operation dispatched second by
`envEmptyToken` gets the token `tok2` typed at the second token prompt and the
username `bob`; a session that is set is left alone. -/
theorem session_fields_are_prompt_answers_at_dispatch_witness :
    (main envEmptyToken 2 ["home"]).trace
        = (main envEmptyToken 2 ["home"]).trace.take 36
          ++ Event.call .delete (.str "bob") (.str "tok2") ["home"]
            :: (main envEmptyToken 2 ["home"]).trace.drop 37
      ∧ (answers "Enter your GitHub access token:"
          ((main envEmptyToken 2 ["home"]).trace.take 36)) = ["", "tok2"]
      ∧ (answers "Enter your GitHub username:"
          ((main envEmptyToken 2 ["home"]).trace.take 36)).getLast? = some "bob"
      ∧ loggedInState.accessToken.truthy = true
      ∧ (showHomeScreen baseEnv loggedInState).2.accessToken = .str "tok"
      ∧ (mainIteration baseEnv loggedInState).2.accessToken = .str "tok" :=
  ⟨by decide, by decide,
    by
      obtain ⟨b, hb, hb2⟩ := ((session_fields_are_prompt_answers_at_dispatch envEmptyToken).1
        2 ["home"] ((main envEmptyToken 2 ["home"]).trace.take 36)
        ((main envEmptyToken 2 ["home"]).trace.drop 37)
        .delete (.str "bob") (.str "tok2") ["home"] (by decide)).2
      rw [hb2]
      exact congrArg some (JsVal.str.inj hb).symm,
    by decide,
    ((session_fields_are_prompt_answers_at_dispatch baseEnv).2.1 loggedInState (by decide)).1,
    ((session_fields_are_prompt_answers_at_dispatch baseEnv).2.1 loggedInState
      (by decide)).2.2⟩

set_option maxRecDepth 100000 in
/-- C10 fails as stated: the new repository is named by the single component `new`,
all six commands run, but `new` is a symbolic link to `/elsewhere`, so the process
that started in `/home` ends in `/`. -/
theorem symlink_breaks_directory_restore :
    SingleComponent sampleRequest.newRepoName
      ∧ (execResults (eventsSince startState
          (migrateRepository envSymlink (.str "bob") (.str "tok") startState).2)).length = 6
      ∧ startState.cwd = ["home"]
      ∧ (migrateRepository envSymlink (.str "bob") (.str "tok") startState).2.cwd = []
      ∧ (migrateRepository envSymlink (.str "bob") (.str "tok") startState).2.cwd
          ≠ startState.cwd := by
  refine ⟨by unfold SingleComponent; decide, by decide, rfl, by decide, by decide⟩

set_option maxRecDepth 100000 in
/-- C10, as the code has it, on samples without symbolic links: a failed rewrite
leaves the process in `/home/new.git`, a failed push in `/home/new`, a completed run
in `/home`; and in a session where the rewrite fails, the bulk clone dispatched next
starts in `/home/new.git`. -/
theorem migrate_working_directory_witness :
    Event.promptMigration (.ok sampleRequest)
        ∈ eventsSince startState (migrateRepository (envCommandFails (rewriteCmd sampleRequest))
            (.str "bob") (.str "tok") startState).2
      ∧ SingleComponent sampleRequest.newRepoName
      ∧ (∀ ev ∈ eventsSince startState
            (migrateRepository (envCommandFails (rewriteCmd sampleRequest))
              (.str "bob") (.str "tok") startState).2, ev.lexical = true)
      ∧ (migrateRepository (envCommandFails (rewriteCmd sampleRequest))
            (.str "bob") (.str "tok") startState).2.cwd = ["home", "new.git"]
      ∧ (migrateRepository (envCommandFails "git push --mirror origin")
            (.str "bob") (.str "tok") startState).2.cwd = ["home", "new"]
      ∧ (migrateRepository baseEnv (.str "bob") (.str "tok") startState).2.cwd = ["home"]
      ∧ callArgs (main envMigrateThenClone 2 ["home"]).trace
        = [(.str "bob", .str "tok", ["home"]), (.str "bob", .str "tok", ["home", "new.git"])] :=
  ⟨by decide, by unfold SingleComponent; decide, by decide,
    (migrate_working_directory (envCommandFails (rewriteCmd sampleRequest))
      (.str "bob") (.str "tok") startState sampleRequest (by decide)
      (by unfold SingleComponent; decide) (by decide)).2.2.2.1
      "exit status 1" (by decide),
    (migrate_working_directory (envCommandFails "git push --mirror origin")
      (.str "bob") (.str "tok") startState sampleRequest (by decide)
      (by unfold SingleComponent; decide) (by decide)).2.2.2.2.1
      "exit status 1" (Or.inr (by decide)),
    (migrate_working_directory baseEnv
      (.str "bob") (.str "tok") startState sampleRequest (by decide)
      (by unfold SingleComponent; decide) (by decide)).1 (by decide),
    by decide⟩

end GitCommander
